import Mathlib

/-!
FFXIV wire-format decoding.

A shallow embedding of the decoding functions of the `ffxiv` Go package
(`bundle.go`, `codec.go`, `message.go`, `parse.go`) together with the part of Go's
`encoding/binary` and of the gc compiler's struct layout that they rely on.

* A buffer (`[]byte`) is a `List UInt8`.
* Unsigned machine integers decoded from the wire are natural numbers; the
  one narrowing conversion of the source, `uint32(len(b))`, is written with
  an explicit `% 2 ^ 32`.
* A Go call returns through `Result`: a value, an `error`, or a run-time panic.
* The slice that `MagicIdentifier` returns is a reference into a heap of byte arrays,
  so that a caller's store through it is visible to later calls.
-/

set_option autoImplicit false
set_option maxRecDepth 8192

namespace FFXIV

/-! ## Results and errors -/

/-- The `error` values the package can return: its own `errors.New` texts, the two
end-of-input errors of `io.ReadFull`, which `binary.Read` passes on, and the errors of
`compress/zlib` and `compress/flate`. -/
inductive Err where
  | invalidBundleHeaderSize
  | invalidMessageHeaderSize
  | messageLengthTooSmall
  | messageLengthInvalid
  | unrecognizedMessageType
  | invalidMessageSize
  | EOF
  | ErrUnexpectedEOF
  | unsupportedCodec
  | zlibErrHeader
  | zlibErrDictionary
  | zlibErrChecksum
  | flateCorruptInput
  deriving DecidableEq, Repr

/-- The text carried by each error. -/
def Err.text : Err → String
  | .invalidBundleHeaderSize => "invalid bundle header size"
  | .invalidMessageHeaderSize => "invalid message header size"
  | .messageLengthTooSmall => "message length too small"
  | .messageLengthInvalid => "message length invalid"
  | .unrecognizedMessageType => "unrecognized message type"
  | .invalidMessageSize => "invalid message size"
  | .EOF => "EOF"
  | .ErrUnexpectedEOF => "unexpected EOF"
  | .unsupportedCodec => "unsupported codec"
  | .zlibErrHeader => "zlib: invalid header"
  | .zlibErrDictionary => "zlib: invalid dictionary"
  | .zlibErrChecksum => "zlib: invalid checksum"
  | .flateCorruptInput => "flate: corrupt input"

/-- Outcome of a Go call of type `(T, error)`: `ok v` is `(v, nil)`, `error e` is
`(nil, e)`, and `panic` is a run-time panic (slice bounds out of range). -/
inductive Result (α : Type) where
  | ok (v : α)
  | error (e : Err)
  | panic
  deriving DecidableEq, Repr

/-! ## Go types, `unsafe.Sizeof` and `binary.Size` -/

/-- The Go types occurring in the package's wire structs. A struct is the list of
the types of its fields, in declaration order. -/
inductive GoType where
  | uint8
  | uint16
  | uint32
  | uint64
  | bool
  | array (n : Nat) (elem : GoType)
  | struct (fields : List GoType)

mutual
/-- Packed size used by `binary.Read` (`encoding/binary`, `dataSize`/`sizeof`): the
sum of the sizes of the fields, no padding. -/
def GoType.dataSize : GoType → Nat
  | .uint8 => 1
  | .uint16 => 2
  | .uint32 => 4
  | .uint64 => 8
  | .bool => 1
  | .array n e => n * e.dataSize
  | .struct fs => GoType.dataSizeFields fs
/-- Sum of the packed sizes of a field list. -/
def GoType.dataSizeFields : List GoType → Nat
  | [] => 0
  | f :: r => f.dataSize + GoType.dataSizeFields r
end

/-- Round `o` up to a multiple of `a`. -/
def roundUp (o a : Nat) : Nat := (o + a - 1) / a * a

mutual
/-- Alignment of a type under the gc compiler; `regSize` is the register size of the
target (8 on 64-bit targets, 4 on 386/arm), which caps the alignment of `uint64`. -/
def GoType.alignof (regSize : Nat) : GoType → Nat
  | .uint8 => 1
  | .uint16 => 2
  | .uint32 => 4
  | .uint64 => min 8 regSize
  | .bool => 1
  | .array _ e => e.alignof regSize
  | .struct fs => GoType.maxAlign regSize fs
/-- Largest alignment among the fields of a struct (1 for the empty struct). -/
def GoType.maxAlign (regSize : Nat) : List GoType → Nat
  | [] => 1
  | f :: r => max (f.alignof regSize) (GoType.maxAlign regSize r)
end

mutual
/-- In-memory size, `unsafe.Sizeof`: each field is placed at the next offset that is
a multiple of its alignment and the total is rounded up to the struct's alignment. -/
def GoType.sizeof (regSize : Nat) : GoType → Nat
  | .uint8 => 1
  | .uint16 => 2
  | .uint32 => 4
  | .uint64 => 8
  | .bool => 1
  | .array n e => n * e.sizeof regSize
  | .struct fs => roundUp (GoType.layout regSize fs 0) (GoType.maxAlign regSize fs)
/-- End offset after laying out a field list from offset `o`. -/
def GoType.layout (regSize : Nat) : List GoType → Nat → Nat
  | [], o => o
  | f :: r, o => GoType.layout regSize r (roundUp o (f.alignof regSize) + f.sizeof regSize)
end

/-- Array of bytes, `[n]byte`. -/
abbrev GoType.bytes (n : Nat) : GoType := .array n .uint8

/-- Layout of `MessageHeader` (message.go). -/
def MessageHeaderT : GoType :=
  .struct [.uint32, .uint32, .uint32, .uint16, .bytes 4, .uint16, .bytes 2, .uint16, .uint32, .uint32]

/-- The constant `townCount`. -/
def townCount : Nat := 6

/-- Layout of `MessageMarketTaxRates`. -/
def MessageMarketTaxRatesT : GoType :=
  .struct [MessageHeaderT, .bytes 8, .array townCount .uint32, .bytes 8]

/-- Layout of `MessageMarketBoardItemListingCount`. -/
def MessageMarketBoardItemListingCountT : GoType :=
  .struct [MessageHeaderT, .uint32, .bytes 4, .uint16, .uint16, .bytes 4]

/-- Layout of `MarketItemListing`. -/
def MarketItemListingT : GoType :=
  .struct [.uint64, .uint64, .uint64, .uint64, .uint32, .uint32, .uint32, .uint32,
    .uint16, .uint16, .uint32, .uint16, .uint16, .array 5 .uint16, .bytes 6,
    .bytes 32, .bytes 32, .bool, .uint8, .uint8, .uint8, .uint16, .bytes 6]

/-- Layout of `MessageMarketBoardItemListing`. -/
def MessageMarketBoardItemListingT : GoType :=
  .struct [MessageHeaderT, .array 10 MarketItemListingT, .uint8, .uint8, .uint16, .bytes 4]

/-- Layout of `MarketHistoryListing`. -/
def MarketHistoryListingT : GoType :=
  .struct [.uint32, .uint32, .uint32, .uint8, .uint8, .uint8, .bytes 33, .uint32]

/-- Layout of `MessageMarketBoardItemListingHistory`. -/
def MessageMarketBoardItemListingHistoryT : GoType :=
  .struct [MessageHeaderT, .array 2 .uint32, .array 20 MarketHistoryListingT]

/-- Layout of `MarketBoardItem`. -/
def MarketBoardItemT : GoType :=
  .struct [.uint32, .uint16, .uint16]

/-- Layout of `MessageMarketBoardSearchResult`. -/
def MessageMarketBoardSearchResultT : GoType :=
  .struct [MessageHeaderT, .array 20 MarketBoardItemT, .uint32, .bytes 4, .uint32, .uint32]

/-- Layout of `MessageMarketBoardRequestItemListingInfo`. -/
def MessageMarketBoardRequestItemListingInfoT : GoType :=
  .struct [MessageHeaderT, .uint32, .uint32]

/-- Layout of `BundleHeader` (bundle.go). -/
def BundleHeaderT : GoType :=
  .struct [.array 4 .uint32, .uint64, .uint32, .uint16, .uint16, .uint16, .bytes 4]

/-! The size constants of message.go, `int(unsafe.Sizeof(T{}))`, on a 64-bit target. -/

/-- The constant `MessageHeaderSize`. -/
def MessageHeaderSize : Nat := MessageHeaderT.sizeof 8
/-- The constant `MessageMarketTaxRatesSize`. -/
def MessageMarketTaxRatesSize : Nat := MessageMarketTaxRatesT.sizeof 8
/-- The constant `MessageMarketBoardItemListingCountSize`. -/
def MessageMarketBoardItemListingCountSize : Nat := MessageMarketBoardItemListingCountT.sizeof 8
/-- The constant `MessageMarketBoardItemListingSize`. -/
def MessageMarketBoardItemListingSize : Nat := MessageMarketBoardItemListingT.sizeof 8
/-- The constant `MessageMarketBoardItemListingHistorySize`. -/
def MessageMarketBoardItemListingHistorySize : Nat := MessageMarketBoardItemListingHistoryT.sizeof 8
/-- The constant `MessageMarketBoardSearchResultSize`. -/
def MessageMarketBoardSearchResultSize : Nat := MessageMarketBoardSearchResultT.sizeof 8
/-- The constant `MessageMarketBoardRequestItemListingInfoSize`. -/
def MessageMarketBoardRequestItemListingInfoSize : Nat :=
  MessageMarketBoardRequestItemListingInfoT.sizeof 8

/-- The constant `BundleHeaderSize`, a literal 40 in bundle.go. -/
def BundleHeaderSize : Nat := 40

/-! ## `encoding/binary`: little-endian byte order and the struct decoder -/

/-- A byte. -/
abbrev Byte := UInt8

/-- Go's `binary.LittleEndian.Uint16`: `uint16(b[0]) | uint16(b[1])<<8`. -/
def Uint16 (b : List Byte) : Nat :=
  (b.getD 0 0).toNat ||| ((b.getD 1 0).toNat <<< 8)

/-- Go's `binary.LittleEndian.Uint32`. -/
def Uint32 (b : List Byte) : Nat :=
  (b.getD 0 0).toNat ||| ((b.getD 1 0).toNat <<< 8) ||| ((b.getD 2 0).toNat <<< 16) |||
    ((b.getD 3 0).toNat <<< 24)

/-- Go's `binary.LittleEndian.Uint64`. -/
def Uint64 (b : List Byte) : Nat :=
  (b.getD 0 0).toNat ||| ((b.getD 1 0).toNat <<< 8) ||| ((b.getD 2 0).toNat <<< 16) |||
    ((b.getD 3 0).toNat <<< 24) ||| ((b.getD 4 0).toNat <<< 32) ||| ((b.getD 5 0).toNat <<< 40) |||
    ((b.getD 6 0).toNat <<< 48) ||| ((b.getD 7 0).toNat <<< 56)

/-- State of `binary`'s `decoder`: the part `buf[offset:]` not yet consumed. A read
returns the decoded value and the advanced state. -/
abbrev Decoder (α : Type) := List Byte → α × List Byte

/-- Method `decoder.uint8`. -/
def Decoder.uint8 : Decoder Byte := fun d => (d.getD 0 0, d.drop 1)

/-- Method `decoder.bool`: a byte different from zero is `true`. -/
def Decoder.bool : Decoder Bool := fun d => (d.getD 0 0 != 0, d.drop 1)

/-- Method `decoder.uint16`. -/
def Decoder.uint16 : Decoder Nat := fun d => (Uint16 d, d.drop 2)

/-- Method `decoder.uint32`. -/
def Decoder.uint32 : Decoder Nat := fun d => (Uint32 d, d.drop 4)

/-- Method `decoder.uint64`. -/
def Decoder.uint64 : Decoder Nat := fun d => (Uint64 d, d.drop 8)

/-- Method `decoder.value` on an array of `n` elements: the elements are decoded in order. -/
def Decoder.array {α : Type} (elem : Decoder α) : Nat → Decoder (List α)
  | 0, d => ([], d)
  | n + 1, d =>
    let (x, d) := elem d
    let (xs, d) := Decoder.array elem n d
    (x :: xs, d)

/-- Go's `binary.Read(r, binary.LittleEndian, data)` for a pointer to a struct of packed
size `size`: `io.ReadFull` fetches `size` bytes from the reader (`io.EOF` when none is
left, `io.ErrUnexpectedEOF` when too few are), then the fields are decoded from them. -/
def binaryRead {α : Type} (size : Nat) (decode : Decoder α) (r : List Byte) : Result α :=
  if r.length < size then
    .error (if r.length = 0 then .EOF else .ErrUnexpectedEOF)
  else
    .ok (decode (r.take size)).1

/-! ## bundle.go -/

/-- Go struct `BundleHeader`. -/
structure BundleHeader where
  Magic : List Nat
  Timestamp : Nat
  Length : Nat
  Connection : Nat
  Count : Nat
  Encoding : Nat
  Unknown : List Byte
  deriving DecidableEq, Repr

/-- Field-by-field decoding of a `BundleHeader`. -/
def decodeBundleHeader : Decoder BundleHeader := fun d =>
  let (magic, d) := Decoder.array Decoder.uint32 4 d
  let (timestamp, d) := Decoder.uint64 d
  let (length, d) := Decoder.uint32 d
  let (connection, d) := Decoder.uint16 d
  let (count, d) := Decoder.uint16 d
  let (encoding, d) := Decoder.uint16 d
  let (unknown, d) := Decoder.array Decoder.uint8 4 d
  ({ Magic := magic, Timestamp := timestamp, Length := length, Connection := connection,
     Count := count, Encoding := encoding, Unknown := unknown }, d)

/-- Function `NewBundleHeader`. -/
def NewBundleHeader (b : List Byte) : Result BundleHeader :=
  if b.length ≠ BundleHeaderSize then
    .error .invalidBundleHeaderSize
  else
    binaryRead BundleHeaderT.dataSize decodeBundleHeader b

/-! ## message.go -/

/-- Go struct `MessageHeader`. The field `Type` of the source is `MessageType` here (`Type` is
reserved). -/
structure MessageHeader where
  Length : Nat
  SourceActorID : Nat
  TargetActorID : Nat
  ControlType : Nat
  Unknown1 : List Byte
  MessageType : Nat
  Unknown2 : List Byte
  ServerID : Nat
  Timestamp : Nat
  Unknown3 : Nat
  deriving DecidableEq, Repr

/-- Go struct `MessageBytes`: a header and the raw bytes after it. -/
structure MessageBytes where
  Header : MessageHeader
  Bytes : List Byte
  deriving DecidableEq, Repr

/-- Go struct `MessageMarketTaxRates`. -/
structure MessageMarketTaxRates where
  Header : MessageHeader
  Unknown1 : List Byte
  TaxRates : List Nat
  Unknown2 : List Byte
  deriving DecidableEq, Repr

/-- Go struct `MessageMarketBoardItemListingCount`. -/
structure MessageMarketBoardItemListingCount where
  Header : MessageHeader
  ItemCatalogID : Nat
  Unknown1 : List Byte
  RequestID : Nat
  Quantity : Nat
  Unknown2 : List Byte
  deriving DecidableEq, Repr

/-- Go struct `MarketItemListing`. -/
structure MarketItemListing where
  ListingID : Nat
  RetainerID : Nat
  RetainerOwnerID : Nat
  ArtisanID : Nat
  PricePerUnit : Nat
  TotalTax : Nat
  ItemQuantity : Nat
  ItemID : Nat
  LastReviewTime : Nat
  ContainerID : Nat
  SlotID : Nat
  Durability : Nat
  SpiritBond : Nat
  MateriaValue : List Nat
  Unknown1 : List Byte
  RetainerName : List Byte
  PlayerName : List Byte
  HQ : Bool
  MateriaCount : Byte
  OnMannequin : Byte
  MarketCity : Byte
  DyeID : Nat
  Unknown2 : List Byte
  deriving DecidableEq, Repr

/-- Go struct `MessageMarketBoardItemListing`. -/
structure MessageMarketBoardItemListing where
  Header : MessageHeader
  Listing : List MarketItemListing
  ListingIndexEnd : Byte
  ListingIndexStart : Byte
  RequestID : Nat
  Unknown : List Byte
  deriving DecidableEq, Repr

/-- Go struct `MarketHistoryListing`. -/
structure MarketHistoryListing where
  SalePrice : Nat
  PurchaseTime : Nat
  Quantity : Nat
  HQ : Byte
  Unknown : Byte
  OnMannequin : Byte
  BuyerName : List Byte
  ItemCatalogID : Nat
  deriving DecidableEq, Repr

/-- Go struct `MessageMarketBoardItemListingHistory`. -/
structure MessageMarketBoardItemListingHistory where
  Header : MessageHeader
  ItemCatalogID : List Nat
  Listing : List MarketHistoryListing
  deriving DecidableEq, Repr

/-- Go struct `MarketBoardItem`. -/
structure MarketBoardItem where
  ItemCatalogID : Nat
  Quantity : Nat
  Demand : Nat
  deriving DecidableEq, Repr

/-- Go struct `MessageMarketBoardSearchResult`. -/
structure MessageMarketBoardSearchResult where
  Header : MessageHeader
  Items : List MarketBoardItem
  ItemIndexEnd : Nat
  Unknown : List Byte
  ItemIndexStart : Nat
  RequestID : Nat
  deriving DecidableEq, Repr

/-- Go struct `MessageMarketBoardRequestItemListingInfo`. -/
structure MessageMarketBoardRequestItemListingInfo where
  Header : MessageHeader
  CatalogID : Nat
  RequestID : Nat
  deriving DecidableEq, Repr

/-- The interface `Message`: one constructor per type that implements `IsMessage`. -/
inductive Message where
  | header (m : MessageHeader)
  | bytes (m : MessageBytes)
  | marketTaxRates (m : MessageMarketTaxRates)
  | marketBoardItemListingCount (m : MessageMarketBoardItemListingCount)
  | marketBoardItemListing (m : MessageMarketBoardItemListing)
  | marketBoardItemListingHistory (m : MessageMarketBoardItemListingHistory)
  | marketBoardSearchResult (m : MessageMarketBoardSearchResult)
  | marketBoardRequestItemListingInfo (m : MessageMarketBoardRequestItemListingInfo)
  deriving DecidableEq, Repr

/-- Field-by-field decoding of a `MessageHeader`. -/
def decodeMessageHeader : Decoder MessageHeader := fun d =>
  let (length, d) := Decoder.uint32 d
  let (sourceActorID, d) := Decoder.uint32 d
  let (targetActorID, d) := Decoder.uint32 d
  let (controlType, d) := Decoder.uint16 d
  let (unknown1, d) := Decoder.array Decoder.uint8 4 d
  let (type, d) := Decoder.uint16 d
  let (unknown2, d) := Decoder.array Decoder.uint8 2 d
  let (serverID, d) := Decoder.uint16 d
  let (timestamp, d) := Decoder.uint32 d
  let (unknown3, d) := Decoder.uint32 d
  ({ Length := length, SourceActorID := sourceActorID, TargetActorID := targetActorID,
     ControlType := controlType, Unknown1 := unknown1, MessageType := type,
     Unknown2 := unknown2, ServerID := serverID, Timestamp := timestamp,
     Unknown3 := unknown3 }, d)

/-- Field-by-field decoding of a `MessageMarketTaxRates`. -/
def decodeMessageMarketTaxRates : Decoder MessageMarketTaxRates := fun d =>
  let (header, d) := decodeMessageHeader d
  let (unknown1, d) := Decoder.array Decoder.uint8 8 d
  let (taxRates, d) := Decoder.array Decoder.uint32 townCount d
  let (unknown2, d) := Decoder.array Decoder.uint8 8 d
  ({ Header := header, Unknown1 := unknown1, TaxRates := taxRates, Unknown2 := unknown2 }, d)

/-- Field-by-field decoding of a `MessageMarketBoardItemListingCount`. -/
def decodeMessageMarketBoardItemListingCount : Decoder MessageMarketBoardItemListingCount :=
  fun d =>
  let (header, d) := decodeMessageHeader d
  let (itemCatalogID, d) := Decoder.uint32 d
  let (unknown1, d) := Decoder.array Decoder.uint8 4 d
  let (requestID, d) := Decoder.uint16 d
  let (quantity, d) := Decoder.uint16 d
  let (unknown2, d) := Decoder.array Decoder.uint8 4 d
  ({ Header := header, ItemCatalogID := itemCatalogID, Unknown1 := unknown1,
     RequestID := requestID, Quantity := quantity, Unknown2 := unknown2 }, d)

/-- Field-by-field decoding of a `MarketItemListing`. -/
def decodeMarketItemListing : Decoder MarketItemListing := fun d =>
  let (listingID, d) := Decoder.uint64 d
  let (retainerID, d) := Decoder.uint64 d
  let (retainerOwnerID, d) := Decoder.uint64 d
  let (artisanID, d) := Decoder.uint64 d
  let (pricePerUnit, d) := Decoder.uint32 d
  let (totalTax, d) := Decoder.uint32 d
  let (itemQuantity, d) := Decoder.uint32 d
  let (itemID, d) := Decoder.uint32 d
  let (lastReviewTime, d) := Decoder.uint16 d
  let (containerID, d) := Decoder.uint16 d
  let (slotID, d) := Decoder.uint32 d
  let (durability, d) := Decoder.uint16 d
  let (spiritBond, d) := Decoder.uint16 d
  let (materiaValue, d) := Decoder.array Decoder.uint16 5 d
  let (unknown1, d) := Decoder.array Decoder.uint8 6 d
  let (retainerName, d) := Decoder.array Decoder.uint8 32 d
  let (playerName, d) := Decoder.array Decoder.uint8 32 d
  let (hq, d) := Decoder.bool d
  let (materiaCount, d) := Decoder.uint8 d
  let (onMannequin, d) := Decoder.uint8 d
  let (marketCity, d) := Decoder.uint8 d
  let (dyeID, d) := Decoder.uint16 d
  let (unknown2, d) := Decoder.array Decoder.uint8 6 d
  ({ ListingID := listingID, RetainerID := retainerID, RetainerOwnerID := retainerOwnerID,
     ArtisanID := artisanID, PricePerUnit := pricePerUnit, TotalTax := totalTax,
     ItemQuantity := itemQuantity, ItemID := itemID, LastReviewTime := lastReviewTime,
     ContainerID := containerID, SlotID := slotID, Durability := durability,
     SpiritBond := spiritBond, MateriaValue := materiaValue, Unknown1 := unknown1,
     RetainerName := retainerName, PlayerName := playerName, HQ := hq,
     MateriaCount := materiaCount, OnMannequin := onMannequin, MarketCity := marketCity,
     DyeID := dyeID, Unknown2 := unknown2 }, d)

/-- Field-by-field decoding of a `MessageMarketBoardItemListing`. -/
def decodeMessageMarketBoardItemListing : Decoder MessageMarketBoardItemListing := fun d =>
  let (header, d) := decodeMessageHeader d
  let (listing, d) := Decoder.array decodeMarketItemListing 10 d
  let (listingIndexEnd, d) := Decoder.uint8 d
  let (listingIndexStart, d) := Decoder.uint8 d
  let (requestID, d) := Decoder.uint16 d
  let (unknown, d) := Decoder.array Decoder.uint8 4 d
  ({ Header := header, Listing := listing, ListingIndexEnd := listingIndexEnd,
     ListingIndexStart := listingIndexStart, RequestID := requestID, Unknown := unknown }, d)

/-- Field-by-field decoding of a `MarketHistoryListing`. -/
def decodeMarketHistoryListing : Decoder MarketHistoryListing := fun d =>
  let (salePrice, d) := Decoder.uint32 d
  let (purchaseTime, d) := Decoder.uint32 d
  let (quantity, d) := Decoder.uint32 d
  let (hq, d) := Decoder.uint8 d
  let (unknown, d) := Decoder.uint8 d
  let (onMannequin, d) := Decoder.uint8 d
  let (buyerName, d) := Decoder.array Decoder.uint8 33 d
  let (itemCatalogID, d) := Decoder.uint32 d
  ({ SalePrice := salePrice, PurchaseTime := purchaseTime, Quantity := quantity, HQ := hq,
     Unknown := unknown, OnMannequin := onMannequin, BuyerName := buyerName,
     ItemCatalogID := itemCatalogID }, d)

/-- Field-by-field decoding of a `MessageMarketBoardItemListingHistory`. -/
def decodeMessageMarketBoardItemListingHistory : Decoder MessageMarketBoardItemListingHistory :=
  fun d =>
  let (header, d) := decodeMessageHeader d
  let (itemCatalogID, d) := Decoder.array Decoder.uint32 2 d
  let (listing, d) := Decoder.array decodeMarketHistoryListing 20 d
  ({ Header := header, ItemCatalogID := itemCatalogID, Listing := listing }, d)

/-- Field-by-field decoding of a `MarketBoardItem`. -/
def decodeMarketBoardItem : Decoder MarketBoardItem := fun d =>
  let (itemCatalogID, d) := Decoder.uint32 d
  let (quantity, d) := Decoder.uint16 d
  let (demand, d) := Decoder.uint16 d
  ({ ItemCatalogID := itemCatalogID, Quantity := quantity, Demand := demand }, d)

/-- Field-by-field decoding of a `MessageMarketBoardSearchResult`. -/
def decodeMessageMarketBoardSearchResult : Decoder MessageMarketBoardSearchResult := fun d =>
  let (header, d) := decodeMessageHeader d
  let (items, d) := Decoder.array decodeMarketBoardItem 20 d
  let (itemIndexEnd, d) := Decoder.uint32 d
  let (unknown, d) := Decoder.array Decoder.uint8 4 d
  let (itemIndexStart, d) := Decoder.uint32 d
  let (requestID, d) := Decoder.uint32 d
  ({ Header := header, Items := items, ItemIndexEnd := itemIndexEnd, Unknown := unknown,
     ItemIndexStart := itemIndexStart, RequestID := requestID }, d)

/-- Field-by-field decoding of a `MessageMarketBoardRequestItemListingInfo`. -/
def decodeMessageMarketBoardRequestItemListingInfo :
    Decoder MessageMarketBoardRequestItemListingInfo := fun d =>
  let (header, d) := decodeMessageHeader d
  let (catalogID, d) := Decoder.uint32 d
  let (requestID, d) := Decoder.uint32 d
  ({ Header := header, CatalogID := catalogID, RequestID := requestID }, d)

/-- Wrap the value of a successful result. -/
def Result.map {α β : Type} (f : α → β) : Result α → Result β
  | .ok v => .ok (f v)
  | .error e => .error e
  | .panic => .panic

/-- Function `NewMessageHeader`. -/
def NewMessageHeader (b : List Byte) : Result MessageHeader :=
  if b.length ≠ MessageHeaderSize then
    .error .invalidMessageHeaderSize
  else
    binaryRead MessageHeaderT.dataSize decodeMessageHeader b

/-! ## parse.go -/

/-- Function type `MessageParser`. -/
abbrev MessageParser := List Byte → Result Message

/-- Function `parseMessageMarketTaxRates`. -/
def parseMessageMarketTaxRates : MessageParser := fun b =>
  if b.length ≠ MessageMarketTaxRatesSize then
    .error .invalidMessageSize
  else
    (binaryRead MessageMarketTaxRatesT.dataSize decodeMessageMarketTaxRates b).map
      Message.marketTaxRates

/-- Function `parseMessageMarketBoardItemListingCount`. -/
def parseMessageMarketBoardItemListingCount : MessageParser := fun b =>
  if b.length ≠ MessageMarketBoardItemListingCountSize then
    .error .invalidMessageSize
  else
    (binaryRead MessageMarketBoardItemListingCountT.dataSize
      decodeMessageMarketBoardItemListingCount b).map Message.marketBoardItemListingCount

/-- Function `parseMessageMarketBoardItemListing`. -/
def parseMessageMarketBoardItemListing : MessageParser := fun b =>
  if b.length ≠ MessageMarketBoardItemListingSize then
    .error .invalidMessageSize
  else
    (binaryRead MessageMarketBoardItemListingT.dataSize
      decodeMessageMarketBoardItemListing b).map Message.marketBoardItemListing

/-- Function `parseMessageMarketBoardItemListingHistory`. -/
def parseMessageMarketBoardItemListingHistory : MessageParser := fun b =>
  if b.length ≠ MessageMarketBoardItemListingHistorySize then
    .error .invalidMessageSize
  else
    (binaryRead MessageMarketBoardItemListingHistoryT.dataSize
      decodeMessageMarketBoardItemListingHistory b).map Message.marketBoardItemListingHistory

/-- Function `parseMessageMarketBoardSearchResult`. -/
def parseMessageMarketBoardSearchResult : MessageParser := fun b =>
  if b.length ≠ MessageMarketBoardSearchResultSize then
    .error .invalidMessageSize
  else
    (binaryRead MessageMarketBoardSearchResultT.dataSize
      decodeMessageMarketBoardSearchResult b).map Message.marketBoardSearchResult

/-- Function `parseMessageMarketBoardRequestItemListingInfo`. -/
def parseMessageMarketBoardRequestItemListingInfo : MessageParser := fun b =>
  if b.length ≠ MessageMarketBoardRequestItemListingInfoSize then
    .error .invalidMessageSize
  else
    (binaryRead MessageMarketBoardRequestItemListingInfoT.dataSize
      decodeMessageMarketBoardRequestItemListingInfo b).map
      Message.marketBoardRequestItemListingInfo

/-- The map `messageParsers`, keyed by the `uint16` message type. -/
def messageParsers (t : Nat) : Option MessageParser :=
  if t = 0x025F then some parseMessageMarketBoardItemListing
  else if t = 0x038F then some parseMessageMarketBoardItemListingCount
  else if t = 0x0186 then some parseMessageMarketBoardItemListingHistory
  else if t = 0x0102 then some parseMessageMarketBoardRequestItemListingInfo
  else if t = 0x032C then some parseMessageMarketBoardSearchResult
  else if t = 0x01F8 then some parseMessageMarketTaxRates
  else none

/-! ## message.go: the two entry points -/

/-- Function `NewMessage`. The conversion `uint32(len(b))` keeps the low 32 bits of the length. -/
def NewMessage (b : List Byte) : Result Message :=
  if b.length < MessageHeaderSize then
    .error .messageLengthTooSmall
  else
    match NewMessageHeader (b.take MessageHeaderSize) with
    | .error e => .error e
    | .panic => .panic
    | .ok mh =>
      if b.length % 2 ^ 32 ≠ mh.Length then
        .error .messageLengthInvalid
      else if mh.ControlType ≠ 3 then
        .ok (.header mh)
      else
        match messageParsers mh.MessageType with
        | none => .error .unrecognizedMessageType
        | some mp => mp b

/-- Function `NewMessageBytes`. There is no length check before the slice expressions:
`b[MessageHeaderSize:]` needs `MessageHeaderSize ≤ len(b)`, so a shorter buffer makes
the call panic (at `b[:MessageHeaderSize]` when the capacity is too small as well, at
`b[MessageHeaderSize:]` otherwise). -/
def NewMessageBytes (b : List Byte) : Result Message :=
  if b.length < MessageHeaderSize then
    .panic
  else
    match NewMessageHeader (b.take MessageHeaderSize) with
    | .error e => .error e
    | .panic => .panic
    | .ok mh => .ok (.bytes { Header := mh, Bytes := b.drop MessageHeaderSize })

/-! ## Vocabulary of the statements -/

/-- Go's slice expression `b[lo:hi]`. -/
def slice (b : List Byte) (lo hi : Nat) : List Byte := (b.take hi).drop lo

/-- Little-endian value of a byte string: the first byte is the least significant. -/
def littleEndian : List Byte → Nat
  | [] => 0
  | x :: xs => x.toNat + 256 * littleEndian xs

/-- The header read off the first 32 bytes of a buffer: every field as the bytes at
its packed offset. -/
def headerAt (b : List Byte) : MessageHeader :=
  { Length := littleEndian (slice b 0 4)
    SourceActorID := littleEndian (slice b 4 8)
    TargetActorID := littleEndian (slice b 8 12)
    ControlType := littleEndian (slice b 12 14)
    Unknown1 := slice b 14 18
    MessageType := littleEndian (slice b 18 20)
    Unknown2 := slice b 20 22
    ServerID := littleEndian (slice b 22 24)
    Timestamp := littleEndian (slice b 24 28)
    Unknown3 := littleEndian (slice b 28 32) }

/-- Declared length of a message buffer: the little-endian `uint32` in bytes 0..4. -/
def declaredLength (b : List Byte) : Nat := littleEndian (slice b 0 4)

/-- Control-type tag of a message buffer: the little-endian `uint16` in bytes 12..14. -/
def controlType (b : List Byte) : Nat := littleEndian (slice b 12 14)

/-- Message-type tag of a message buffer: the little-endian `uint16` in bytes 18..20. -/
def messageType (b : List Byte) : Nat := littleEndian (slice b 18 20)

/-- The six registered message-type tags. -/
def registeredTags : List Nat := [0x025F, 0x038F, 0x0186, 0x0102, 0x032C, 0x01F8]

/-- Static record size bound to a message-type tag (0 for a tag that is not registered). -/
def staticSize (t : Nat) : Nat :=
  if t = 0x01F8 then MessageMarketTaxRatesSize
  else if t = 0x038F then MessageMarketBoardItemListingCountSize
  else if t = 0x025F then MessageMarketBoardItemListingSize
  else if t = 0x0186 then MessageMarketBoardItemListingHistorySize
  else if t = 0x032C then MessageMarketBoardSearchResultSize
  else if t = 0x0102 then MessageMarketBoardRequestItemListingInfoSize
  else 0

/-! ### Packed little-endian encoding

The package has no encoder. The round-trip statement uses the packed field-by-field
little-endian encoding below, the inverse direction of `binary.Read`
(`binary.LittleEndian.PutUint16` and so on, fields in declaration order, no padding). -/

/-- Go's `binary.LittleEndian.PutUint16`: `byte(v), byte(v >> 8)`. -/
def PutUint16 (v : Nat) : List Byte := [UInt8.ofNat v, UInt8.ofNat (v >>> 8)]

/-- Go's `binary.LittleEndian.PutUint32`. -/
def PutUint32 (v : Nat) : List Byte :=
  [UInt8.ofNat v, UInt8.ofNat (v >>> 8), UInt8.ofNat (v >>> 16), UInt8.ofNat (v >>> 24)]

/-- Go's `binary.LittleEndian.PutUint64`. -/
def PutUint64 (v : Nat) : List Byte :=
  [UInt8.ofNat v, UInt8.ofNat (v >>> 8), UInt8.ofNat (v >>> 16), UInt8.ofNat (v >>> 24),
   UInt8.ofNat (v >>> 32), UInt8.ofNat (v >>> 40), UInt8.ofNat (v >>> 48), UInt8.ofNat (v >>> 56)]

/-- Encoding of a `bool`: 1 for `true`, 0 for `false`. -/
def encodeBool (v : Bool) : List Byte := [if v then 1 else 0]

/-- Encoding of an array: the encodings of its elements, in order. -/
def encodeArray {α : Type} (enc : α → List Byte) : List α → List Byte
  | [] => []
  | x :: xs => enc x ++ encodeArray enc xs

/-- Packed encoding of a `MessageHeader`. -/
def encodeMessageHeader (h : MessageHeader) : List Byte :=
  PutUint32 h.Length ++ PutUint32 h.SourceActorID ++ PutUint32 h.TargetActorID ++
  PutUint16 h.ControlType ++ h.Unknown1 ++ PutUint16 h.MessageType ++ h.Unknown2 ++
  PutUint16 h.ServerID ++ PutUint32 h.Timestamp ++ PutUint32 h.Unknown3

/-- Packed encoding of a `MessageMarketTaxRates`. -/
def encodeMessageMarketTaxRates (m : MessageMarketTaxRates) : List Byte :=
  encodeMessageHeader m.Header ++ m.Unknown1 ++ encodeArray PutUint32 m.TaxRates ++ m.Unknown2

/-- Packed encoding of a `MessageMarketBoardItemListingCount`. -/
def encodeMessageMarketBoardItemListingCount (m : MessageMarketBoardItemListingCount) :
    List Byte :=
  encodeMessageHeader m.Header ++ PutUint32 m.ItemCatalogID ++ m.Unknown1 ++
  PutUint16 m.RequestID ++ PutUint16 m.Quantity ++ m.Unknown2

/-- Packed encoding of a `MarketItemListing`. -/
def encodeMarketItemListing (l : MarketItemListing) : List Byte :=
  PutUint64 l.ListingID ++ PutUint64 l.RetainerID ++ PutUint64 l.RetainerOwnerID ++
  PutUint64 l.ArtisanID ++ PutUint32 l.PricePerUnit ++ PutUint32 l.TotalTax ++
  PutUint32 l.ItemQuantity ++ PutUint32 l.ItemID ++ PutUint16 l.LastReviewTime ++
  PutUint16 l.ContainerID ++ PutUint32 l.SlotID ++ PutUint16 l.Durability ++
  PutUint16 l.SpiritBond ++ encodeArray PutUint16 l.MateriaValue ++ l.Unknown1 ++
  l.RetainerName ++ l.PlayerName ++ encodeBool l.HQ ++ [l.MateriaCount] ++ [l.OnMannequin] ++
  [l.MarketCity] ++ PutUint16 l.DyeID ++ l.Unknown2

/-- Packed encoding of a `MessageMarketBoardItemListing`. -/
def encodeMessageMarketBoardItemListing (m : MessageMarketBoardItemListing) : List Byte :=
  encodeMessageHeader m.Header ++ encodeArray encodeMarketItemListing m.Listing ++
  [m.ListingIndexEnd] ++ [m.ListingIndexStart] ++ PutUint16 m.RequestID ++ m.Unknown

/-- Packed encoding of a `MarketHistoryListing`. -/
def encodeMarketHistoryListing (l : MarketHistoryListing) : List Byte :=
  PutUint32 l.SalePrice ++ PutUint32 l.PurchaseTime ++ PutUint32 l.Quantity ++ [l.HQ] ++
  [l.Unknown] ++ [l.OnMannequin] ++ l.BuyerName ++ PutUint32 l.ItemCatalogID

/-- Packed encoding of a `MessageMarketBoardItemListingHistory`. -/
def encodeMessageMarketBoardItemListingHistory (m : MessageMarketBoardItemListingHistory) :
    List Byte :=
  encodeMessageHeader m.Header ++ encodeArray PutUint32 m.ItemCatalogID ++
  encodeArray encodeMarketHistoryListing m.Listing

/-- Packed encoding of a `MarketBoardItem`. -/
def encodeMarketBoardItem (i : MarketBoardItem) : List Byte :=
  PutUint32 i.ItemCatalogID ++ PutUint16 i.Quantity ++ PutUint16 i.Demand

/-- Packed encoding of a `MessageMarketBoardSearchResult`. -/
def encodeMessageMarketBoardSearchResult (m : MessageMarketBoardSearchResult) : List Byte :=
  encodeMessageHeader m.Header ++ encodeArray encodeMarketBoardItem m.Items ++
  PutUint32 m.ItemIndexEnd ++ m.Unknown ++ PutUint32 m.ItemIndexStart ++ PutUint32 m.RequestID

/-- Packed encoding of a `MessageMarketBoardRequestItemListingInfo`. -/
def encodeMessageMarketBoardRequestItemListingInfo
    (m : MessageMarketBoardRequestItemListingInfo) : List Byte :=
  encodeMessageHeader m.Header ++ PutUint32 m.CatalogID ++ PutUint32 m.RequestID

/-! ### Records that are values of the Go types

A field of type `uintN` holds a number below `2 ^ N` and an array field `[n]T` holds
exactly `n` elements. -/

/-- Every element of a list is below a bound. -/
def allBelow (bound : Nat) (xs : List Nat) : Prop := ∀ x ∈ xs, x < bound

instance (bound : Nat) (xs : List Nat) : Decidable (allBelow bound xs) := by
  unfold allBelow
  infer_instance

/-- Typing of a `MessageHeader`. -/
def MessageHeader.WF (h : MessageHeader) : Prop :=
  h.Length < 2 ^ 32 ∧ h.SourceActorID < 2 ^ 32 ∧ h.TargetActorID < 2 ^ 32 ∧
  h.ControlType < 2 ^ 16 ∧ h.Unknown1.length = 4 ∧ h.MessageType < 2 ^ 16 ∧
  h.Unknown2.length = 2 ∧ h.ServerID < 2 ^ 16 ∧ h.Timestamp < 2 ^ 32 ∧ h.Unknown3 < 2 ^ 32

instance (h : MessageHeader) : Decidable h.WF := by
  unfold MessageHeader.WF
  infer_instance

/-- Typing of a `MessageMarketTaxRates`. -/
def MessageMarketTaxRates.WF (m : MessageMarketTaxRates) : Prop :=
  m.Header.WF ∧ m.Unknown1.length = 8 ∧ m.TaxRates.length = townCount ∧
  allBelow (2 ^ 32) m.TaxRates ∧ m.Unknown2.length = 8

instance (m : MessageMarketTaxRates) : Decidable m.WF := by
  unfold MessageMarketTaxRates.WF
  infer_instance

/-- Typing of a `MessageMarketBoardItemListingCount`. -/
def MessageMarketBoardItemListingCount.WF (m : MessageMarketBoardItemListingCount) : Prop :=
  m.Header.WF ∧ m.ItemCatalogID < 2 ^ 32 ∧ m.Unknown1.length = 4 ∧ m.RequestID < 2 ^ 16 ∧
  m.Quantity < 2 ^ 16 ∧ m.Unknown2.length = 4

instance (m : MessageMarketBoardItemListingCount) : Decidable m.WF := by
  unfold MessageMarketBoardItemListingCount.WF
  infer_instance

/-- Typing of a `MarketItemListing`. -/
def MarketItemListing.WF (l : MarketItemListing) : Prop :=
  l.ListingID < 2 ^ 64 ∧ l.RetainerID < 2 ^ 64 ∧ l.RetainerOwnerID < 2 ^ 64 ∧
  l.ArtisanID < 2 ^ 64 ∧ l.PricePerUnit < 2 ^ 32 ∧ l.TotalTax < 2 ^ 32 ∧
  l.ItemQuantity < 2 ^ 32 ∧ l.ItemID < 2 ^ 32 ∧ l.LastReviewTime < 2 ^ 16 ∧
  l.ContainerID < 2 ^ 16 ∧ l.SlotID < 2 ^ 32 ∧ l.Durability < 2 ^ 16 ∧
  l.SpiritBond < 2 ^ 16 ∧ l.MateriaValue.length = 5 ∧ allBelow (2 ^ 16) l.MateriaValue ∧
  l.Unknown1.length = 6 ∧ l.RetainerName.length = 32 ∧ l.PlayerName.length = 32 ∧
  l.DyeID < 2 ^ 16 ∧ l.Unknown2.length = 6

instance (l : MarketItemListing) : Decidable l.WF := by
  unfold MarketItemListing.WF
  infer_instance

/-- Typing of a `MessageMarketBoardItemListing`. -/
def MessageMarketBoardItemListing.WF (m : MessageMarketBoardItemListing) : Prop :=
  m.Header.WF ∧ m.Listing.length = 10 ∧ (∀ l ∈ m.Listing, l.WF) ∧ m.RequestID < 2 ^ 16 ∧
  m.Unknown.length = 4

instance (m : MessageMarketBoardItemListing) : Decidable m.WF := by
  unfold MessageMarketBoardItemListing.WF
  infer_instance

/-- Typing of a `MarketHistoryListing`. -/
def MarketHistoryListing.WF (l : MarketHistoryListing) : Prop :=
  l.SalePrice < 2 ^ 32 ∧ l.PurchaseTime < 2 ^ 32 ∧ l.Quantity < 2 ^ 32 ∧
  l.BuyerName.length = 33 ∧ l.ItemCatalogID < 2 ^ 32

instance (l : MarketHistoryListing) : Decidable l.WF := by
  unfold MarketHistoryListing.WF
  infer_instance

/-- Typing of a `MessageMarketBoardItemListingHistory`. -/
def MessageMarketBoardItemListingHistory.WF (m : MessageMarketBoardItemListingHistory) : Prop :=
  m.Header.WF ∧ m.ItemCatalogID.length = 2 ∧ allBelow (2 ^ 32) m.ItemCatalogID ∧
  m.Listing.length = 20 ∧ (∀ l ∈ m.Listing, l.WF)

instance (m : MessageMarketBoardItemListingHistory) : Decidable m.WF := by
  unfold MessageMarketBoardItemListingHistory.WF
  infer_instance

/-- Typing of a `MarketBoardItem`. -/
def MarketBoardItem.WF (i : MarketBoardItem) : Prop :=
  i.ItemCatalogID < 2 ^ 32 ∧ i.Quantity < 2 ^ 16 ∧ i.Demand < 2 ^ 16

instance (i : MarketBoardItem) : Decidable i.WF := by
  unfold MarketBoardItem.WF
  infer_instance

/-- Typing of a `MessageMarketBoardSearchResult`. -/
def MessageMarketBoardSearchResult.WF (m : MessageMarketBoardSearchResult) : Prop :=
  m.Header.WF ∧ m.Items.length = 20 ∧ (∀ i ∈ m.Items, i.WF) ∧ m.ItemIndexEnd < 2 ^ 32 ∧
  m.Unknown.length = 4 ∧ m.ItemIndexStart < 2 ^ 32 ∧ m.RequestID < 2 ^ 32

instance (m : MessageMarketBoardSearchResult) : Decidable m.WF := by
  unfold MessageMarketBoardSearchResult.WF
  infer_instance

/-- Typing of a `MessageMarketBoardRequestItemListingInfo`. -/
def MessageMarketBoardRequestItemListingInfo.WF
    (m : MessageMarketBoardRequestItemListingInfo) : Prop :=
  m.Header.WF ∧ m.CatalogID < 2 ^ 32 ∧ m.RequestID < 2 ^ 32

instance (m : MessageMarketBoardRequestItemListingInfo) : Decidable m.WF := by
  unfold MessageMarketBoardRequestItemListingInfo.WF
  infer_instance

/-- The header embedded in a message. -/
def Message.Header : Message → MessageHeader
  | .header m => m
  | .bytes m => m.Header
  | .marketTaxRates m => m.Header
  | .marketBoardItemListingCount m => m.Header
  | .marketBoardItemListing m => m.Header
  | .marketBoardItemListingHistory m => m.Header
  | .marketBoardSearchResult m => m.Header
  | .marketBoardRequestItemListingInfo m => m.Header

/-- Message-type tag of each typed record (`none` for the header-only and the raw
variant, which have no registered tag). -/
def Message.tag : Message → Option Nat
  | .header _ => none
  | .bytes _ => none
  | .marketTaxRates _ => some 0x01F8
  | .marketBoardItemListingCount _ => some 0x038F
  | .marketBoardItemListing _ => some 0x025F
  | .marketBoardItemListingHistory _ => some 0x0186
  | .marketBoardSearchResult _ => some 0x032C
  | .marketBoardRequestItemListingInfo _ => some 0x0102

/-- Typing of a message. -/
def Message.WF : Message → Prop
  | .header m => m.WF
  | .bytes m => m.Header.WF
  | .marketTaxRates m => m.WF
  | .marketBoardItemListingCount m => m.WF
  | .marketBoardItemListing m => m.WF
  | .marketBoardItemListingHistory m => m.WF
  | .marketBoardSearchResult m => m.WF
  | .marketBoardRequestItemListingInfo m => m.WF

instance (m : Message) : Decidable m.WF := by
  cases m <;> unfold Message.WF <;> infer_instance

/-- Packed encoding of a message. -/
def encodeMessage : Message → List Byte
  | .header m => encodeMessageHeader m
  | .bytes m => encodeMessageHeader m.Header ++ m.Bytes
  | .marketTaxRates m => encodeMessageMarketTaxRates m
  | .marketBoardItemListingCount m => encodeMessageMarketBoardItemListingCount m
  | .marketBoardItemListing m => encodeMessageMarketBoardItemListing m
  | .marketBoardItemListingHistory m => encodeMessageMarketBoardItemListingHistory m
  | .marketBoardSearchResult m => encodeMessageMarketBoardSearchResult m
  | .marketBoardRequestItemListingInfo m => encodeMessageMarketBoardRequestItemListingInfo m

/-- A 32-byte header that declares a length of 32, control type 0 and message type 0. -/
def shortHeader : List Byte := [32, 0, 0, 0] ++ List.replicate 28 0

/-- A buffer of `2 ^ 32 + 32` bytes whose header declares a length of 32. -/
def wrappedBuffer : List Byte := shortHeader ++ List.replicate (2 ^ 32) 0

/-! ### Sample data -/

/-- A sample header with the given declared length, control type and message type. -/
def sampleHeader (len ct ty : Nat) : MessageHeader :=
  { Length := len, SourceActorID := 0x10203040, TargetActorID := 0x50607080,
    ControlType := ct, Unknown1 := [1, 2, 3, 4], MessageType := ty, Unknown2 := [5, 6],
    ServerID := 0x0708, Timestamp := 0x5F3C2A10, Unknown3 := 0xFFFFFFFF }

/-- A sample tax-rate record. -/
def sampleTaxRates : Message :=
  .marketTaxRates
    { Header := sampleHeader 72 3 0x01F8, Unknown1 := [1, 2, 3, 4, 5, 6, 7, 8],
      TaxRates := [5, 5, 3, 5, 0, 0xFFFFFFFF], Unknown2 := [8, 7, 6, 5, 4, 3, 2, 1] }

/-- A 41-byte actor-control frame tagged 0x0102, one byte longer than that record. -/
def oneByteLonger : List Byte := encodeMessageHeader (sampleHeader 41 3 0x0102) ++ List.replicate 9 0

/-- A 33-byte frame with control type 2 and the registered tag 0x025F. -/
def controlFrame : List Byte := encodeMessageHeader (sampleHeader 33 2 0x025F) ++ [0xFF]

/-- A 40-byte actor-control frame with the tag 0x0103, which is not registered. -/
def unknownTagFrame : List Byte :=
  encodeMessageHeader (sampleHeader 40 3 0x0103) ++ List.replicate 8 0

/-- A 40-byte buffer holding the bytes 0, 1, ..., 39. -/
def sampleBundle : List Byte := (List.range 40).map UInt8.ofNat

/-- A 32-byte buffer: the encoding of a sample header. -/
def sampleHeaderBytes : List Byte := encodeMessageHeader (sampleHeader 513 3 0x01F8)

/-- A 35-byte buffer whose header declares 9 bytes. -/
def rawFrame : List Byte := encodeMessageHeader (sampleHeader 9 7 0xABCD) ++ [0xDE, 0xAD, 0xBF]

/-! ## codec.go -/

/-- What `io.Copy(out, r)` gets from a zlib reader `r`: the bytes written to `out`
before the reader stopped, and the error it stopped with (`none` at a clean end of the
stream). -/
structure ZlibRead where
  out : List Byte
  err : Option Err
  deriving DecidableEq, Repr

/-- The part of Go's `compress/zlib` that `decodeZlib` calls. `NewReader data` is
`zlib.NewReader` on a buffer holding `data`: an error (with a nil reader) when the
stream header is missing or invalid, and otherwise a reader, given by what reading it to
the end produces. -/
structure Zlib where
  NewReader : List Byte → Except Err ZlibRead

/-- The stream header check of `zlib.NewReader` (`reader.Reset`, RFC 1950 section 2.2)
with no preset dictionary: two bytes are needed, the compression method must be 8, the
window size at most 7, the two bytes read big-endian a multiple of 31; a stream that
asks for a preset dictionary must carry the checksum of the empty dictionary, 1. The
result is the rest of the input, the deflate body. -/
def zlibHeader (data : List Byte) : Except Err (List Byte) :=
  match data with
  | [] => .error .ErrUnexpectedEOF
  | [_] => .error .ErrUnexpectedEOF
  | cmf :: flg :: rest =>
    if cmf.toNat % 16 ≠ 8 ∨ cmf.toNat / 16 > 7 ∨ (cmf.toNat * 256 + flg.toNat) % 31 ≠ 0 then
      .error .zlibErrHeader
    else if flg.toNat / 32 % 2 ≠ 0 then
      match rest with
      | c0 :: c1 :: c2 :: c3 :: body =>
        if ((c0.toNat * 256 + c1.toNat) * 256 + c2.toNat) * 256 + c3.toNat ≠ 1 then
          .error .zlibErrDictionary
        else .ok body
      | _ => .error .ErrUnexpectedEOF
    else .ok rest

/-- The library `compress/zlib` over a given inflater of the deflate body (`inflate body`
is what reading the body to the end produces). -/
def goZlib (inflate : List Byte → ZlibRead) : Zlib :=
  { NewReader := fun data =>
      match zlibHeader data with
      | .error e => .error e
      | .ok body => .ok (inflate body) }

/-- Function `decodeNone`. -/
def decodeNone (b : List Byte) : Result (List Byte) := .ok b

/-- Function `decodeZlib`. The statement `defer r.Close()` stands before the check of
`err`: when `zlib.NewReader` fails, `r` is the nil interface and evaluating `r.Close`
panics (nil pointer dereference), so `return nil, err` is never reached. When the reader
is created, the error of `io.Copy(out, r)` is discarded and the bytes copied so far are
returned with a nil error. -/
def decodeZlib (z : Zlib) (data : List Byte) : Result (List Byte) :=
  match z.NewReader data with
  | .error _ => .panic
  | .ok r => .ok r.out

/-- The map `decoderMap`, keyed by the `uint16` encoding; its values have the function
type that codec.go calls `Decoder`. -/
def decoderMap (z : Zlib) (encoding : Nat) : Option (List Byte → Result (List Byte)) :=
  if encoding = 0x0 then some decodeNone
  else if encoding = 0x1 then some decodeNone
  else if encoding = 0x100 then some (decodeZlib z)
  else if encoding = 0x101 then some (decodeZlib z)
  else none

/-- Function `Decode`. -/
def Decode (z : Zlib) (encoding : Nat) (data : List Byte) : Result (List Byte) :=
  match decoderMap z encoding with
  | none => .error .unsupportedCodec
  | some e => e data

/-- The four encoding tags of `decoderMap`. -/
def knownEncodings : List Nat := [0x0000, 0x0001, 0x0100, 0x0101]

/-! ## bundle.go: the magic identifier -/

/-- A Go value of type `[]byte` seen as a reference: nil, or the first `len` bytes of
the heap array at address `array`. Two slices with the same address share their bytes:
a store through one is seen through the other. -/
inductive Slice where
  | nil
  | ref (array : Nat) (len : Nat)
  deriving DecidableEq, Repr

/-- The program state the package works on: the byte arrays allocated so far (an
address is a position in `heap`), the package-level variable `magic`, nil at start,
and whether `magicOnce` has already run its function. -/
structure Globals where
  heap : List (List Byte)
  magic : Slice
  magicOnce : Bool
  deriving DecidableEq, Repr

/-- The bytes a slice holds in a state. -/
def Globals.bytes (g : Globals) : Slice → List Byte
  | .nil => []
  | .ref a n => (g.heap.getD a []).take n

/-- An inflater that reports a truncated body and produces the given bytes. -/
def truncatedBody (out : List Byte) : List Byte → ZlibRead :=
  fun _ => { out := out, err := some .ErrUnexpectedEOF }

/-- A valid two-byte zlib stream header with nothing after it. -/
def headerOnlyStream : List Byte := [0x78, 0x9C]

/-- A 1560-byte actor-control frame tagged 0x025F: a header and 1528 body bytes
0, 1, 2, ... (modulo 256). -/
def sampleListingFrame : List Byte :=
  encodeMessageHeader (sampleHeader 1560 3 0x025F) ++ (List.range 1528).map UInt8.ofNat

/-! ## Little-endian reads and the generic decoder -/

theorem or_shiftLeft_of_lt (k a b : Nat) (h : a < 2 ^ k) : a ||| (b <<< k) = a + 2 ^ k * b := by
  rw [Nat.or_comm, Nat.shiftLeft_eq, Nat.mul_comm, ← Nat.mul_add_lt_is_or h, Nat.add_comm]

theorem Uint16_cons (x y : Byte) (r : List Byte) :
    Uint16 (x :: y :: r) = x.toNat + 256 * y.toNat := by
  have hx := x.toNat_lt
  simp only [Uint16, List.getD_cons_zero, List.getD_cons_succ]
  rw [or_shiftLeft_of_lt 8 _ _ hx]
  omega

theorem Uint32_cons (x y z w : Byte) (r : List Byte) :
    Uint32 (x :: y :: z :: w :: r) =
      x.toNat + 256 * (y.toNat + 256 * (z.toNat + 256 * w.toNat)) := by
  have hx := x.toNat_lt
  have hy := y.toNat_lt
  have hz := z.toNat_lt
  simp only [Uint32, List.getD_cons_zero, List.getD_cons_succ]
  rw [or_shiftLeft_of_lt 8 _ _ hx, or_shiftLeft_of_lt 16 _ _ (by omega),
    or_shiftLeft_of_lt 24 _ _ (by omega)]
  omega

theorem Uint64_cons (a b c d e f g h : Byte) (r : List Byte) :
    Uint64 (a :: b :: c :: d :: e :: f :: g :: h :: r) =
      a.toNat + 256 * (b.toNat + 256 * (c.toNat + 256 * (d.toNat + 256 * (e.toNat +
        256 * (f.toNat + 256 * (g.toNat + 256 * h.toNat)))))) := by
  have ha := a.toNat_lt
  have hb := b.toNat_lt
  have hc := c.toNat_lt
  have hd := d.toNat_lt
  have he := e.toNat_lt
  have hf := f.toNat_lt
  have hg := g.toNat_lt
  simp only [Uint64, List.getD_cons_zero, List.getD_cons_succ]
  rw [or_shiftLeft_of_lt 8 _ _ ha, or_shiftLeft_of_lt 16 _ _ (by omega),
    or_shiftLeft_of_lt 24 _ _ (by omega), or_shiftLeft_of_lt 32 _ _ (by omega),
    or_shiftLeft_of_lt 40 _ _ (by omega), or_shiftLeft_of_lt 48 _ _ (by omega),
    or_shiftLeft_of_lt 56 _ _ (by omega)]
  omega


theorem Uint16_eq_littleEndian (d : List Byte) (h : 2 ≤ d.length) :
    Uint16 d = littleEndian (d.take 2) := by
  match d, h with
  | x :: y :: r, _ => simp [Uint16_cons, littleEndian]

theorem Uint32_eq_littleEndian (d : List Byte) (h : 4 ≤ d.length) :
    Uint32 d = littleEndian (d.take 4) := by
  match d, h with
  | x :: y :: z :: w :: r, _ => simp [Uint32_cons, littleEndian]

theorem Uint64_eq_littleEndian (d : List Byte) (h : 8 ≤ d.length) :
    Uint64 d = littleEndian (d.take 8) := by
  match d, h with
  | a :: b :: c :: e :: f :: g :: i :: j :: r, _ => simp [Uint64_cons, littleEndian]

theorem binaryRead_ok {α : Type} (size : Nat) (decode : Decoder α) (r : List Byte)
    (h : size ≤ r.length) : binaryRead size decode r = .ok (decode (r.take size)).1 := by
  simp [binaryRead, Nat.not_lt.mpr h]

theorem array_snd {α : Type} (elem : Decoder α) (sz : Nat)
    (hel : ∀ d, (elem d).2 = d.drop sz) (n : Nat) (d : List Byte) :
    (Decoder.array elem n d).2 = d.drop (n * sz) := by
  induction n generalizing d with
  | zero => simp [Decoder.array]
  | succ n ih =>
    simp only [Decoder.array, ih, hel, List.drop_drop]
    congr 1
    rw [Nat.succ_mul]
    omega

theorem array_fst {α : Type} (elem : Decoder α) (sz : Nat)
    (hel : ∀ d, (elem d).2 = d.drop sz) (n : Nat) (d : List Byte) :
    (Decoder.array elem n d).1 = (List.range n).map (fun i => (elem (d.drop (i * sz))).1) := by
  induction n generalizing d with
  | zero => simp [Decoder.array]
  | succ n ih =>
    simp only [Decoder.array, ih, hel, List.drop_drop, List.range_succ_eq_map, List.map_cons,
      List.map_map]
    simp
    intro i _
    rw [Nat.succ_mul, Nat.add_comm]

theorem array_uint8 (n : Nat) (d : List Byte) (h : n ≤ d.length) :
    Decoder.array Decoder.uint8 n d = (d.take n, d.drop n) := by
  induction n generalizing d with
  | zero => simp [Decoder.array]
  | succ n ih =>
    match d, h with
    | x :: r, h =>
      simp only [Decoder.array, Decoder.uint8, List.drop_succ_cons, List.drop_zero,
        List.getD_cons_zero, List.take_succ_cons]
      rw [ih r (by simpa using h)]

theorem slice_take (b : List Byte) (lo hi n : Nat) (h : hi ≤ n) :
    slice (b.take n) lo hi = slice b lo hi := by
  rw [slice, slice, List.take_take, Nat.min_eq_left h]

theorem Uint16_drop (d : List Byte) (k : Nat) (h : k + 2 ≤ d.length) :
    Uint16 (d.drop k) = littleEndian (slice d k (k + 2)) := by
  rw [Uint16_eq_littleEndian _ (by simp; omega), List.take_drop, slice, Nat.add_comm]

theorem Uint32_drop (d : List Byte) (k : Nat) (h : k + 4 ≤ d.length) :
    Uint32 (d.drop k) = littleEndian (slice d k (k + 4)) := by
  rw [Uint32_eq_littleEndian _ (by simp; omega), List.take_drop, slice, Nat.add_comm]

theorem Uint64_drop (d : List Byte) (k : Nat) (h : k + 8 ≤ d.length) :
    Uint64 (d.drop k) = littleEndian (slice d k (k + 8)) := by
  rw [Uint64_eq_littleEndian _ (by simp; omega), List.take_drop, slice, Nat.add_comm]

theorem array_uint8_drop (n k : Nat) (d : List Byte) (h : k + n ≤ d.length) :
    Decoder.array Decoder.uint8 n (d.drop k) = (slice d k (k + n), d.drop (k + n)) := by
  rw [array_uint8 n _ (by simp; omega), List.take_drop, slice, List.drop_drop]

theorem MessageHeaderSize_eq : MessageHeaderSize = 32 := by decide
theorem MessageHeaderT_dataSize : MessageHeaderT.dataSize = 32 := by decide

theorem decodeMessageHeader_fst (d : List Byte) (h : 32 ≤ d.length) :
    (decodeMessageHeader d).1 = headerAt d := by
  have e0 := Uint32_drop d 0 (by omega)
  have e1 := Uint32_drop d 4 (by omega)
  have e2 := Uint32_drop d 8 (by omega)
  have e3 := Uint16_drop d 12 (by omega)
  have e4 := array_uint8_drop 4 14 d (by omega)
  have e5 := Uint16_drop d 18 (by omega)
  have e6 := array_uint8_drop 2 20 d (by omega)
  have e7 := Uint16_drop d 22 (by omega)
  have e8 := Uint32_drop d 24 (by omega)
  have e9 := Uint32_drop d 28 (by omega)
  simp only [List.drop_zero, Nat.reduceAdd] at e0 e1 e2 e3 e4 e5 e6 e7 e8 e9
  simp only [decodeMessageHeader, Decoder.uint32, Decoder.uint16, List.drop_drop, Nat.reduceAdd,
    e0, e1, e2, e3, e4, e5, e6, e7, e8, e9, headerAt]

theorem decodeMessageHeader_snd (d : List Byte) : (decodeMessageHeader d).2 = d.drop 32 := by
  have a4 := array_snd Decoder.uint8 1 (fun _ => rfl) 4
  have a2 := array_snd Decoder.uint8 1 (fun _ => rfl) 2
  simp only [decodeMessageHeader, Decoder.uint32, Decoder.uint16, List.drop_drop, Nat.reduceAdd,
    a4, a2, Nat.reduceMul]

/-! ## Decoding an encoded record -/

theorem toNat_ofNat_byte (n : Nat) : (UInt8.ofNat n).toNat = n % 256 := by
  simp [UInt8.toNat, UInt8.ofNat, Fin.ofNat]

theorem Uint16_PutUint16 (v : Nat) (h : v < 2 ^ 16) (rest : List Byte) :
    Uint16 (PutUint16 v ++ rest) = v := by
  simp only [PutUint16, List.cons_append, List.nil_append, Uint16_cons, toNat_ofNat_byte,
    Nat.shiftRight_eq_div_pow]
  omega

theorem Uint32_PutUint32 (v : Nat) (h : v < 2 ^ 32) (rest : List Byte) :
    Uint32 (PutUint32 v ++ rest) = v := by
  simp only [PutUint32, List.cons_append, List.nil_append, Uint32_cons, toNat_ofNat_byte,
    Nat.shiftRight_eq_div_pow]
  omega

theorem Uint64_PutUint64 (v : Nat) (h : v < 2 ^ 64) (rest : List Byte) :
    Uint64 (PutUint64 v ++ rest) = v := by
  simp only [PutUint64, List.cons_append, List.nil_append, Uint64_cons, toNat_ofNat_byte,
    Nat.shiftRight_eq_div_pow]
  omega

theorem uint16_put (v : Nat) (h : v < 2 ^ 16) (rest : List Byte) :
    Decoder.uint16 (PutUint16 v ++ rest) = (v, rest) := by
  rw [Decoder.uint16, Uint16_PutUint16 v h]
  rfl

theorem uint32_put (v : Nat) (h : v < 2 ^ 32) (rest : List Byte) :
    Decoder.uint32 (PutUint32 v ++ rest) = (v, rest) := by
  rw [Decoder.uint32, Uint32_PutUint32 v h]
  rfl

theorem uint64_put (v : Nat) (h : v < 2 ^ 64) (rest : List Byte) :
    Decoder.uint64 (PutUint64 v ++ rest) = (v, rest) := by
  rw [Decoder.uint64, Uint64_PutUint64 v h]
  rfl

theorem uint8_put (x : Byte) (rest : List Byte) : Decoder.uint8 ([x] ++ rest) = (x, rest) := rfl

theorem bool_put (v : Bool) (rest : List Byte) :
    Decoder.bool (encodeBool v ++ rest) = (v, rest) := by
  cases v <;> rfl

theorem bytes_put (n : Nat) (bs : List Byte) (h : bs.length = n) (rest : List Byte) :
    Decoder.array Decoder.uint8 n (bs ++ rest) = (bs, rest) := by
  subst h
  rw [array_uint8 _ _ (by simp)]
  simp

theorem array_put {α : Type} (elem : Decoder α) (enc : α → List Byte) (xs : List α)
    (hx : ∀ x ∈ xs, ∀ rest, elem (enc x ++ rest) = (x, rest)) (n : Nat) (h : xs.length = n)
    (rest : List Byte) :
    Decoder.array elem n (encodeArray enc xs ++ rest) = (xs, rest) := by
  subst h
  induction xs with
  | nil => simp [Decoder.array, encodeArray]
  | cons x xs ih =>
    simp only [List.length_cons, Decoder.array, encodeArray, List.append_assoc]
    rw [hx x (List.mem_cons_self _ _), ih (fun y hy => hx y (List.mem_cons_of_mem _ hy))]

theorem length_encodeArray {α : Type} (enc : α → List Byte) (sz : Nat) (xs : List α)
    (hx : ∀ x ∈ xs, (enc x).length = sz) : (encodeArray enc xs).length = xs.length * sz := by
  induction xs with
  | nil => simp [encodeArray]
  | cons x xs ih =>
    simp only [encodeArray, List.length_append, List.length_cons,
      hx x (List.mem_cons_self _ _), ih (fun y hy => hx y (List.mem_cons_of_mem _ hy)),
      Nat.succ_mul]
    omega

theorem length_PutUint16 (v : Nat) : (PutUint16 v).length = 2 := rfl
theorem length_PutUint32 (v : Nat) : (PutUint32 v).length = 4 := rfl
theorem length_PutUint64 (v : Nat) : (PutUint64 v).length = 8 := rfl
theorem length_encodeBool (v : Bool) : (encodeBool v).length = 1 := rfl

theorem decode_encodeMessageHeader (h : MessageHeader) (wf : h.WF) (rest : List Byte) :
    decodeMessageHeader (encodeMessageHeader h ++ rest) = (h, rest) := by
  obtain ⟨h1, h2, h3, h4, h5, h6, h7, h8, h9, h10⟩ := wf
  simp only [decodeMessageHeader, encodeMessageHeader, List.append_assoc,
    uint32_put _ h1, uint32_put _ h2, uint32_put _ h3, uint16_put _ h4, bytes_put 4 _ h5,
    uint16_put _ h6, bytes_put 2 _ h7, uint16_put _ h8, uint32_put _ h9, uint32_put _ h10]

theorem length_encodeMessageHeader (h : MessageHeader) (wf : h.WF) :
    (encodeMessageHeader h).length = 32 := by
  obtain ⟨h1, h2, h3, h4, h5, h6, h7, h8, h9, h10⟩ := wf
  simp only [encodeMessageHeader, List.length_append, length_PutUint32, length_PutUint16, h5, h7]

theorem PutUint32_array (xs : List Nat) (h : allBelow (2 ^ 32) xs) :
    ∀ x ∈ xs, ∀ rest, Decoder.uint32 (PutUint32 x ++ rest) = (x, rest) :=
  fun x hx rest => uint32_put x (h x hx) rest

theorem PutUint16_array (xs : List Nat) (h : allBelow (2 ^ 16) xs) :
    ∀ x ∈ xs, ∀ rest, Decoder.uint16 (PutUint16 x ++ rest) = (x, rest) :=
  fun x hx rest => uint16_put x (h x hx) rest

theorem decode_encodeMessageMarketTaxRates (m : MessageMarketTaxRates) (wf : m.WF)
    (rest : List Byte) :
    decodeMessageMarketTaxRates (encodeMessageMarketTaxRates m ++ rest) = (m, rest) := by
  obtain ⟨h0, h1, h2, h3, h4⟩ := wf
  simp only [decodeMessageMarketTaxRates, encodeMessageMarketTaxRates, List.append_assoc,
    decode_encodeMessageHeader _ h0, bytes_put 8 _ h1,
    array_put Decoder.uint32 PutUint32 _ (PutUint32_array _ h3) townCount h2, bytes_put 8 _ h4]

theorem length_encodeMessageMarketTaxRates (m : MessageMarketTaxRates) (wf : m.WF) :
    (encodeMessageMarketTaxRates m).length = 72 := by
  obtain ⟨h0, h1, h2, h3, h4⟩ := wf
  simp only [encodeMessageMarketTaxRates, List.length_append, length_encodeMessageHeader _ h0,
    h1, h4, length_encodeArray PutUint32 4 _ (fun _ _ => rfl), h2, townCount]

theorem decode_encodeMessageMarketBoardItemListingCount (m : MessageMarketBoardItemListingCount)
    (wf : m.WF) (rest : List Byte) :
    decodeMessageMarketBoardItemListingCount
      (encodeMessageMarketBoardItemListingCount m ++ rest) = (m, rest) := by
  obtain ⟨h0, h1, h2, h3, h4, h5⟩ := wf
  simp only [decodeMessageMarketBoardItemListingCount, encodeMessageMarketBoardItemListingCount,
    List.append_assoc, decode_encodeMessageHeader _ h0, uint32_put _ h1, bytes_put 4 _ h2,
    uint16_put _ h3, uint16_put _ h4, bytes_put 4 _ h5]

theorem length_encodeMessageMarketBoardItemListingCount (m : MessageMarketBoardItemListingCount)
    (wf : m.WF) : (encodeMessageMarketBoardItemListingCount m).length = 48 := by
  obtain ⟨h0, h1, h2, h3, h4, h5⟩ := wf
  simp only [encodeMessageMarketBoardItemListingCount, List.length_append,
    length_encodeMessageHeader _ h0, length_PutUint32, length_PutUint16, h2, h5]

theorem decode_encodeMarketItemListing (l : MarketItemListing) (wf : l.WF) (rest : List Byte) :
    decodeMarketItemListing (encodeMarketItemListing l ++ rest) = (l, rest) := by
  obtain ⟨h1, h2, h3, h4, h5, h6, h7, h8, h9, h10, h11, h12, h13, h14, h15, h16, h17, h18,
    h19, h20⟩ := wf
  simp only [decodeMarketItemListing, encodeMarketItemListing, List.append_assoc,
    uint64_put _ h1, uint64_put _ h2, uint64_put _ h3, uint64_put _ h4, uint32_put _ h5,
    uint32_put _ h6, uint32_put _ h7, uint32_put _ h8, uint16_put _ h9, uint16_put _ h10,
    uint32_put _ h11, uint16_put _ h12, uint16_put _ h13,
    array_put Decoder.uint16 PutUint16 _ (PutUint16_array _ h15) 5 h14,
    bytes_put 6 _ h16, bytes_put 32 _ h17, bytes_put 32 _ h18, bool_put, uint8_put,
    uint16_put _ h19, bytes_put 6 _ h20]

theorem length_encodeMarketItemListing (l : MarketItemListing) (wf : l.WF) :
    (encodeMarketItemListing l).length = 152 := by
  obtain ⟨h1, h2, h3, h4, h5, h6, h7, h8, h9, h10, h11, h12, h13, h14, h15, h16, h17, h18,
    h19, h20⟩ := wf
  simp only [encodeMarketItemListing, List.length_append, length_PutUint64, length_PutUint32,
    length_PutUint16, length_encodeBool, List.length_singleton,
    length_encodeArray PutUint16 2 _ (fun _ _ => rfl), h14, h16, h17, h18, h20]

theorem decode_encodeMessageMarketBoardItemListing (m : MessageMarketBoardItemListing)
    (wf : m.WF) (rest : List Byte) :
    decodeMessageMarketBoardItemListing (encodeMessageMarketBoardItemListing m ++ rest) =
      (m, rest) := by
  obtain ⟨h0, h1, h2, h3, h4⟩ := wf
  simp only [decodeMessageMarketBoardItemListing, encodeMessageMarketBoardItemListing,
    List.append_assoc, decode_encodeMessageHeader _ h0,
    array_put decodeMarketItemListing encodeMarketItemListing _
      (fun l hl rest => decode_encodeMarketItemListing l (h2 l hl) rest) 10 h1,
    uint8_put, uint16_put _ h3, bytes_put 4 _ h4]

theorem length_encodeMessageMarketBoardItemListing (m : MessageMarketBoardItemListing)
    (wf : m.WF) : (encodeMessageMarketBoardItemListing m).length = 1560 := by
  obtain ⟨h0, h1, h2, h3, h4⟩ := wf
  simp only [encodeMessageMarketBoardItemListing, List.length_append,
    length_encodeMessageHeader _ h0, length_PutUint16, List.length_singleton, h4, h1,
    length_encodeArray encodeMarketItemListing 152 _
      (fun l hl => length_encodeMarketItemListing l (h2 l hl))]

theorem decode_encodeMarketHistoryListing (l : MarketHistoryListing) (wf : l.WF)
    (rest : List Byte) :
    decodeMarketHistoryListing (encodeMarketHistoryListing l ++ rest) = (l, rest) := by
  obtain ⟨h1, h2, h3, h4, h5⟩ := wf
  simp only [decodeMarketHistoryListing, encodeMarketHistoryListing, List.append_assoc,
    uint32_put _ h1, uint32_put _ h2, uint32_put _ h3, uint8_put, bytes_put 33 _ h4,
    uint32_put _ h5]

theorem length_encodeMarketHistoryListing (l : MarketHistoryListing) (wf : l.WF) :
    (encodeMarketHistoryListing l).length = 52 := by
  obtain ⟨h1, h2, h3, h4, h5⟩ := wf
  simp only [encodeMarketHistoryListing, List.length_append, length_PutUint32,
    List.length_singleton, h4]

theorem decode_encodeMessageMarketBoardItemListingHistory
    (m : MessageMarketBoardItemListingHistory) (wf : m.WF) (rest : List Byte) :
    decodeMessageMarketBoardItemListingHistory
      (encodeMessageMarketBoardItemListingHistory m ++ rest) = (m, rest) := by
  obtain ⟨h0, h1, h2, h3, h4⟩ := wf
  simp only [decodeMessageMarketBoardItemListingHistory,
    encodeMessageMarketBoardItemListingHistory, List.append_assoc,
    decode_encodeMessageHeader _ h0,
    array_put Decoder.uint32 PutUint32 _ (PutUint32_array _ h2) 2 h1,
    array_put decodeMarketHistoryListing encodeMarketHistoryListing _
      (fun l hl rest => decode_encodeMarketHistoryListing l (h4 l hl) rest) 20 h3]

theorem length_encodeMessageMarketBoardItemListingHistory
    (m : MessageMarketBoardItemListingHistory) (wf : m.WF) :
    (encodeMessageMarketBoardItemListingHistory m).length = 1080 := by
  obtain ⟨h0, h1, h2, h3, h4⟩ := wf
  simp only [encodeMessageMarketBoardItemListingHistory, List.length_append,
    length_encodeMessageHeader _ h0, h1, h3,
    length_encodeArray PutUint32 4 _ (fun _ _ => rfl),
    length_encodeArray encodeMarketHistoryListing 52 _
      (fun l hl => length_encodeMarketHistoryListing l (h4 l hl))]

theorem decode_encodeMarketBoardItem (i : MarketBoardItem) (wf : i.WF) (rest : List Byte) :
    decodeMarketBoardItem (encodeMarketBoardItem i ++ rest) = (i, rest) := by
  obtain ⟨h1, h2, h3⟩ := wf
  simp only [decodeMarketBoardItem, encodeMarketBoardItem, List.append_assoc,
    uint32_put _ h1, uint16_put _ h2, uint16_put _ h3]

theorem length_encodeMarketBoardItem (i : MarketBoardItem) :
    (encodeMarketBoardItem i).length = 8 := rfl

theorem decode_encodeMessageMarketBoardSearchResult (m : MessageMarketBoardSearchResult)
    (wf : m.WF) (rest : List Byte) :
    decodeMessageMarketBoardSearchResult (encodeMessageMarketBoardSearchResult m ++ rest) =
      (m, rest) := by
  obtain ⟨h0, h1, h2, h3, h4, h5, h6⟩ := wf
  simp only [decodeMessageMarketBoardSearchResult, encodeMessageMarketBoardSearchResult,
    List.append_assoc, decode_encodeMessageHeader _ h0,
    array_put decodeMarketBoardItem encodeMarketBoardItem _
      (fun i hi rest => decode_encodeMarketBoardItem i (h2 i hi) rest) 20 h1,
    uint32_put _ h3, bytes_put 4 _ h4, uint32_put _ h5, uint32_put _ h6]

theorem length_encodeMessageMarketBoardSearchResult (m : MessageMarketBoardSearchResult)
    (wf : m.WF) : (encodeMessageMarketBoardSearchResult m).length = 208 := by
  obtain ⟨h0, h1, h2, h3, h4, h5, h6⟩ := wf
  simp only [encodeMessageMarketBoardSearchResult, List.length_append,
    length_encodeMessageHeader _ h0, length_PutUint32, h1, h4,
    length_encodeArray encodeMarketBoardItem 8 _ (fun i _ => length_encodeMarketBoardItem i)]

theorem decode_encodeMessageMarketBoardRequestItemListingInfo
    (m : MessageMarketBoardRequestItemListingInfo) (wf : m.WF) (rest : List Byte) :
    decodeMessageMarketBoardRequestItemListingInfo
      (encodeMessageMarketBoardRequestItemListingInfo m ++ rest) = (m, rest) := by
  obtain ⟨h0, h1, h2⟩ := wf
  simp only [decodeMessageMarketBoardRequestItemListingInfo,
    encodeMessageMarketBoardRequestItemListingInfo, List.append_assoc,
    decode_encodeMessageHeader _ h0, uint32_put _ h1, uint32_put _ h2]

theorem length_encodeMessageMarketBoardRequestItemListingInfo
    (m : MessageMarketBoardRequestItemListingInfo) (wf : m.WF) :
    (encodeMessageMarketBoardRequestItemListingInfo m).length = 40 := by
  obtain ⟨h0, h1, h2⟩ := wf
  simp only [encodeMessageMarketBoardRequestItemListingInfo, List.length_append,
    length_encodeMessageHeader _ h0, length_PutUint32]

/-! ## The entry points on a buffer that holds a header -/

theorem MessageMarketTaxRatesSize_eq : MessageMarketTaxRatesSize = 72 := by decide
theorem MessageMarketBoardItemListingCountSize_eq :
    MessageMarketBoardItemListingCountSize = 48 := by decide
theorem MessageMarketBoardItemListingSize_eq : MessageMarketBoardItemListingSize = 1560 := by
  decide
theorem MessageMarketBoardItemListingHistorySize_eq :
    MessageMarketBoardItemListingHistorySize = 1080 := by decide
theorem MessageMarketBoardSearchResultSize_eq : MessageMarketBoardSearchResultSize = 208 := by
  decide
theorem MessageMarketBoardRequestItemListingInfoSize_eq :
    MessageMarketBoardRequestItemListingInfoSize = 40 := by decide
theorem MessageMarketTaxRatesT_dataSize : MessageMarketTaxRatesT.dataSize = 72 := by decide
theorem MessageMarketBoardItemListingCountT_dataSize :
    MessageMarketBoardItemListingCountT.dataSize = 48 := by decide
theorem MessageMarketBoardItemListingT_dataSize :
    MessageMarketBoardItemListingT.dataSize = 1560 := by decide
theorem MessageMarketBoardItemListingHistoryT_dataSize :
    MessageMarketBoardItemListingHistoryT.dataSize = 1080 := by decide
theorem MessageMarketBoardSearchResultT_dataSize :
    MessageMarketBoardSearchResultT.dataSize = 208 := by decide
theorem MessageMarketBoardRequestItemListingInfoT_dataSize :
    MessageMarketBoardRequestItemListingInfoT.dataSize = 40 := by decide
theorem BundleHeaderT_dataSize : BundleHeaderT.dataSize = 38 := by decide

theorem headerAt_take (b : List Byte) : headerAt (b.take 32) = headerAt b := by
  simp only [headerAt, slice_take b _ _ 32 (by omega : 4 ≤ 32),
    slice_take b _ _ 32 (by omega : 8 ≤ 32), slice_take b _ _ 32 (by omega : 12 ≤ 32),
    slice_take b _ _ 32 (by omega : 14 ≤ 32), slice_take b _ _ 32 (by omega : 18 ≤ 32),
    slice_take b _ _ 32 (by omega : 20 ≤ 32), slice_take b _ _ 32 (by omega : 22 ≤ 32),
    slice_take b _ _ 32 (by omega : 24 ≤ 32), slice_take b _ _ 32 (by omega : 28 ≤ 32),
    slice_take b _ _ 32 (by omega : 32 ≤ 32)]

theorem NewMessageHeader_of_length (b : List Byte) (h : b.length = 32) :
    NewMessageHeader b = .ok (headerAt b) := by
  have ht : b.take 32 = b := List.take_of_length_le (by omega)
  rw [NewMessageHeader, MessageHeaderSize_eq, if_neg (by simpa using h), MessageHeaderT_dataSize,
    binaryRead_ok _ _ _ (by omega), ht, decodeMessageHeader_fst b (by omega)]

theorem NewMessageHeader_take (b : List Byte) (h : 32 ≤ b.length) :
    NewMessageHeader (b.take 32) = .ok (headerAt b) := by
  rw [NewMessageHeader_of_length _ (by simp; omega), headerAt_take]

theorem NewMessage_of_le (b : List Byte) (h : 32 ≤ b.length) :
    NewMessage b =
      if b.length % 2 ^ 32 ≠ declaredLength b then .error .messageLengthInvalid
      else if controlType b ≠ 3 then .ok (.header (headerAt b))
      else
        match messageParsers (messageType b) with
        | none => .error .unrecognizedMessageType
        | some mp => mp b := by
  rw [NewMessage, MessageHeaderSize_eq, if_neg (by omega), NewMessageHeader_take b h]
  rfl

theorem NewMessage_append_of_header (hd tail : List Byte) (h : hd.length = 32) :
    NewMessage (hd ++ tail) =
      if (32 + tail.length) % 2 ^ 32 ≠ declaredLength hd then .error .messageLengthInvalid
      else if controlType hd ≠ 3 then .ok (.header (headerAt hd))
      else
        match messageParsers (messageType hd) with
        | none => .error .unrecognizedMessageType
        | some mp => mp (hd ++ tail) := by
  have ht : (hd ++ tail).take 32 = hd := by rw [← h]; exact List.take_left' rfl
  have hh : headerAt (hd ++ tail) = headerAt hd := by rw [← headerAt_take, ht]
  have e : ∀ lo hi, hi ≤ 32 → slice (hd ++ tail) lo hi = slice hd lo hi := by
    intro lo hi hhi
    rw [← slice_take _ lo hi 32 hhi, ht]
  rw [NewMessage_of_le _ (by simp; omega), hh, declaredLength, controlType, messageType,
    e _ _ (by omega), e _ _ (by omega), e _ _ (by omega), List.length_append, h]
  rfl

theorem NewMessage_lengthInvalid_of_lt (b : List Byte) (h32 : 32 ≤ b.length)
    (hlt : b.length < 2 ^ 32) (hne : declaredLength b ≠ b.length) :
    NewMessage b = .error .messageLengthInvalid := by
  rw [NewMessage_of_le b h32, Nat.mod_eq_of_lt hlt, if_pos (fun h => hne h.symm)]

theorem littleEndian_lt (bs : List Byte) : littleEndian bs < 256 ^ bs.length := by
  induction bs with
  | nil => simp [littleEndian]
  | cons x xs ih =>
    have hx := x.toNat_lt
    simp only [littleEndian, List.length_cons, Nat.pow_succ]
    omega

theorem declaredLength_lt (b : List Byte) : declaredLength b < 2 ^ 32 := by
  have h := littleEndian_lt (slice b 0 4)
  have hl : (slice b 0 4).length ≤ 4 := by
    simp only [slice, List.drop_zero, List.length_take]
    omega
  have : 256 ^ (slice b 0 4).length ≤ 256 ^ 4 := Nat.pow_le_pow_right (by omega) hl
  rw [declaredLength]
  omega

theorem mod_of_declaredLength (b : List Byte) (h : declaredLength b = b.length) :
    b.length % 2 ^ 32 = declaredLength b := by
  have := declaredLength_lt b
  rw [h] at this ⊢
  exact Nat.mod_eq_of_lt this

theorem messageParsers_none (t : Nat) (h : t ∉ registeredTags) : messageParsers t = none := by
  simp only [registeredTags, List.mem_cons, List.mem_singleton, not_or, List.mem_nil_iff,
    not_false_eq_true, and_true] at h
  obtain ⟨h1, h2, h3, h4, h5, h6⟩ := h
  simp only [messageParsers, h1, h2, h3, h4, h5, h6, if_false]

theorem binaryRead_ne_error {α : Type} (size : Nat) (decode : Decoder α) (r : List Byte)
    (e : Err) (h1 : e ≠ .EOF) (h2 : e ≠ .ErrUnexpectedEOF) :
    binaryRead size decode r ≠ .error e := by
  unfold binaryRead
  split
  · split
    · intro h
      exact h1 (Result.error.inj h).symm
    · intro h
      exact h2 (Result.error.inj h).symm
  · intro h
    exact Result.noConfusion h

theorem map_ne_error {α β : Type} (f : α → β) (r : Result α) (e : Err) (h : r ≠ .error e) :
    r.map f ≠ .error e := by
  cases r with
  | ok v => intro h'; exact Result.noConfusion h'
  | error e' =>
    intro h'
    exact h (by rw [Result.error.inj h'])
  | panic => intro h'; exact Result.noConfusion h'

theorem parser_ne_unrecognized (t : Nat) (mp : MessageParser) (h : messageParsers t = some mp)
    (b : List Byte) : mp b ≠ .error .unrecognizedMessageType := by
  have key : ∀ {α : Type} (n size : Nat) (dec : Decoder α) (f : α → Message),
      (if b.length ≠ n then Result.error Err.invalidMessageSize
        else (binaryRead size dec b).map f) ≠ .error .unrecognizedMessageType := by
    intro α n size dec f
    split
    · intro h'
      exact Err.noConfusion (Result.error.inj h')
    · exact map_ne_error _ _ _ (binaryRead_ne_error _ _ _ _ (by decide) (by decide))
  unfold messageParsers at h
  split_ifs at h <;> (cases h; exact key _ _ _ _)

theorem NewMessageHeader_encodeMessageHeader (h : MessageHeader) (wf : h.WF) :
    NewMessageHeader (encodeMessageHeader h) = .ok h := by
  have hl := length_encodeMessageHeader h wf
  have hd := decode_encodeMessageHeader h wf []
  rw [List.append_nil] at hd
  rw [NewMessageHeader, MessageHeaderSize_eq, if_neg (fun hne => hne hl), MessageHeaderT_dataSize,
    binaryRead_ok _ _ _ (by omega), List.take_of_length_le (by omega), hd]

theorem headerAt_encodeMessageHeader (h : MessageHeader) (wf : h.WF) (rest : List Byte) :
    headerAt (encodeMessageHeader h ++ rest) = h := by
  have hl := length_encodeMessageHeader h wf
  have h1 := NewMessageHeader_take (encodeMessageHeader h ++ rest) (by simp; omega)
  rw [← hl, List.take_left' rfl, NewMessageHeader_encodeMessageHeader h wf] at h1
  exact (Result.ok.inj h1).symm

theorem binaryRead_encode {α : Type} (size : Nat) (decode : Decoder α) (enc : List Byte) (v : α)
    (hl : enc.length = size) (hd : decode (enc ++ []) = (v, [])) :
    binaryRead size decode enc = .ok v := by
  rw [List.append_nil] at hd
  rw [binaryRead_ok _ _ _ (by omega), List.take_of_length_le (by omega), hd]

theorem headerAt_Length (b : List Byte) : (headerAt b).Length = declaredLength b := rfl
theorem headerAt_ControlType (b : List Byte) : (headerAt b).ControlType = controlType b := rfl
theorem headerAt_MessageType (b : List Byte) : (headerAt b).MessageType = messageType b := rfl

theorem NewMessage_typed (hd body : List Byte) (h : MessageHeader) (wf : h.WF)
    (e : hd = encodeMessageHeader h) (hct : h.ControlType = 3) (n : Nat)
    (hn : (hd ++ body).length = n) (hlen : h.Length = n) (mp : MessageParser)
    (hmp : messageParsers h.MessageType = some mp) :
    NewMessage (hd ++ body) = mp (hd ++ body) := by
  subst e
  have hl := length_encodeMessageHeader h wf
  have hh := headerAt_encodeMessageHeader h wf []
  rw [List.append_nil] at hh
  have hlt : n < 2 ^ 32 := by
    rw [← hlen]
    exact wf.1
  rw [List.length_append, hl] at hn
  rw [NewMessage_append_of_header _ _ hl, hn, Nat.mod_eq_of_lt hlt]
  have d1 : declaredLength (encodeMessageHeader h) = h.Length :=
    (headerAt_Length _).symm.trans (congrArg MessageHeader.Length hh)
  have d2 : controlType (encodeMessageHeader h) = h.ControlType :=
    (headerAt_ControlType _).symm.trans (congrArg MessageHeader.ControlType hh)
  have d3 : messageType (encodeMessageHeader h) = h.MessageType :=
    (headerAt_MessageType _).symm.trans (congrArg MessageHeader.MessageType hh)
  rw [d1, d2, d3, hlen, hct, hmp]
  simp

theorem messageParsers_marketTaxRates : messageParsers 0x01F8 = some parseMessageMarketTaxRates := rfl

theorem NewMessage_encodeMessageMarketTaxRates (r : MessageMarketTaxRates) (wf : r.WF)
    (hct : r.Header.ControlType = 3) (hty : r.Header.MessageType = 0x01F8)
    (hlen : r.Header.Length = 72) :
    NewMessage (encodeMessageMarketTaxRates r) = .ok (.marketTaxRates r) := by
  have hl := length_encodeMessageMarketTaxRates r wf
  have hd := decode_encodeMessageMarketTaxRates r wf []
  have e : encodeMessageMarketTaxRates r = encodeMessageHeader r.Header ++
      (r.Unknown1 ++ encodeArray PutUint32 r.TaxRates ++ r.Unknown2) := by
    simp only [encodeMessageMarketTaxRates, List.append_assoc]
  rw [e] at hl hd ⊢
  rw [NewMessage_typed _ _ r.Header wf.1 rfl hct 72 hl hlen parseMessageMarketTaxRates
    (by rw [hty, messageParsers_marketTaxRates])]
  rw [parseMessageMarketTaxRates, MessageMarketTaxRatesSize_eq, if_neg (fun hne => hne hl),
    MessageMarketTaxRatesT_dataSize, binaryRead_encode _ _ _ r hl hd]
  rfl

theorem messageParsers_marketBoardItemListingCount : messageParsers 0x038F = some parseMessageMarketBoardItemListingCount := rfl

theorem NewMessage_encodeMessageMarketBoardItemListingCount (r : MessageMarketBoardItemListingCount) (wf : r.WF)
    (hct : r.Header.ControlType = 3) (hty : r.Header.MessageType = 0x038F)
    (hlen : r.Header.Length = 48) :
    NewMessage (encodeMessageMarketBoardItemListingCount r) = .ok (.marketBoardItemListingCount r) := by
  have hl := length_encodeMessageMarketBoardItemListingCount r wf
  have hd := decode_encodeMessageMarketBoardItemListingCount r wf []
  have e : encodeMessageMarketBoardItemListingCount r = encodeMessageHeader r.Header ++
      (PutUint32 r.ItemCatalogID ++ r.Unknown1 ++ PutUint16 r.RequestID ++ PutUint16 r.Quantity ++ r.Unknown2) := by
    simp only [encodeMessageMarketBoardItemListingCount, List.append_assoc]
  rw [e] at hl hd ⊢
  rw [NewMessage_typed _ _ r.Header wf.1 rfl hct 48 hl hlen parseMessageMarketBoardItemListingCount
    (by rw [hty, messageParsers_marketBoardItemListingCount])]
  rw [parseMessageMarketBoardItemListingCount, MessageMarketBoardItemListingCountSize_eq, if_neg (fun hne => hne hl),
    MessageMarketBoardItemListingCountT_dataSize, binaryRead_encode _ _ _ r hl hd]
  rfl

theorem messageParsers_marketBoardItemListing : messageParsers 0x025F = some parseMessageMarketBoardItemListing := rfl

theorem NewMessage_encodeMessageMarketBoardItemListing (r : MessageMarketBoardItemListing) (wf : r.WF)
    (hct : r.Header.ControlType = 3) (hty : r.Header.MessageType = 0x025F)
    (hlen : r.Header.Length = 1560) :
    NewMessage (encodeMessageMarketBoardItemListing r) = .ok (.marketBoardItemListing r) := by
  have hl := length_encodeMessageMarketBoardItemListing r wf
  have hd := decode_encodeMessageMarketBoardItemListing r wf []
  have e : encodeMessageMarketBoardItemListing r = encodeMessageHeader r.Header ++
      (encodeArray encodeMarketItemListing r.Listing ++ [r.ListingIndexEnd] ++ [r.ListingIndexStart] ++ PutUint16 r.RequestID ++ r.Unknown) := by
    simp only [encodeMessageMarketBoardItemListing, List.append_assoc]
  rw [e] at hl hd ⊢
  rw [NewMessage_typed _ _ r.Header wf.1 rfl hct 1560 hl hlen parseMessageMarketBoardItemListing
    (by rw [hty, messageParsers_marketBoardItemListing])]
  rw [parseMessageMarketBoardItemListing, MessageMarketBoardItemListingSize_eq, if_neg (fun hne => hne hl),
    MessageMarketBoardItemListingT_dataSize, binaryRead_encode _ _ _ r hl hd]
  rfl

theorem messageParsers_marketBoardItemListingHistory : messageParsers 0x0186 = some parseMessageMarketBoardItemListingHistory := rfl

theorem NewMessage_encodeMessageMarketBoardItemListingHistory (r : MessageMarketBoardItemListingHistory) (wf : r.WF)
    (hct : r.Header.ControlType = 3) (hty : r.Header.MessageType = 0x0186)
    (hlen : r.Header.Length = 1080) :
    NewMessage (encodeMessageMarketBoardItemListingHistory r) = .ok (.marketBoardItemListingHistory r) := by
  have hl := length_encodeMessageMarketBoardItemListingHistory r wf
  have hd := decode_encodeMessageMarketBoardItemListingHistory r wf []
  have e : encodeMessageMarketBoardItemListingHistory r = encodeMessageHeader r.Header ++
      (encodeArray PutUint32 r.ItemCatalogID ++ encodeArray encodeMarketHistoryListing r.Listing) := by
    simp only [encodeMessageMarketBoardItemListingHistory, List.append_assoc]
  rw [e] at hl hd ⊢
  rw [NewMessage_typed _ _ r.Header wf.1 rfl hct 1080 hl hlen parseMessageMarketBoardItemListingHistory
    (by rw [hty, messageParsers_marketBoardItemListingHistory])]
  rw [parseMessageMarketBoardItemListingHistory, MessageMarketBoardItemListingHistorySize_eq, if_neg (fun hne => hne hl),
    MessageMarketBoardItemListingHistoryT_dataSize, binaryRead_encode _ _ _ r hl hd]
  rfl

theorem messageParsers_marketBoardSearchResult : messageParsers 0x032C = some parseMessageMarketBoardSearchResult := rfl

theorem NewMessage_encodeMessageMarketBoardSearchResult (r : MessageMarketBoardSearchResult) (wf : r.WF)
    (hct : r.Header.ControlType = 3) (hty : r.Header.MessageType = 0x032C)
    (hlen : r.Header.Length = 208) :
    NewMessage (encodeMessageMarketBoardSearchResult r) = .ok (.marketBoardSearchResult r) := by
  have hl := length_encodeMessageMarketBoardSearchResult r wf
  have hd := decode_encodeMessageMarketBoardSearchResult r wf []
  have e : encodeMessageMarketBoardSearchResult r = encodeMessageHeader r.Header ++
      (encodeArray encodeMarketBoardItem r.Items ++ PutUint32 r.ItemIndexEnd ++ r.Unknown ++ PutUint32 r.ItemIndexStart ++ PutUint32 r.RequestID) := by
    simp only [encodeMessageMarketBoardSearchResult, List.append_assoc]
  rw [e] at hl hd ⊢
  rw [NewMessage_typed _ _ r.Header wf.1 rfl hct 208 hl hlen parseMessageMarketBoardSearchResult
    (by rw [hty, messageParsers_marketBoardSearchResult])]
  rw [parseMessageMarketBoardSearchResult, MessageMarketBoardSearchResultSize_eq, if_neg (fun hne => hne hl),
    MessageMarketBoardSearchResultT_dataSize, binaryRead_encode _ _ _ r hl hd]
  rfl

theorem messageParsers_marketBoardRequestItemListingInfo : messageParsers 0x0102 = some parseMessageMarketBoardRequestItemListingInfo := rfl

theorem NewMessage_encodeMessageMarketBoardRequestItemListingInfo (r : MessageMarketBoardRequestItemListingInfo) (wf : r.WF)
    (hct : r.Header.ControlType = 3) (hty : r.Header.MessageType = 0x0102)
    (hlen : r.Header.Length = 40) :
    NewMessage (encodeMessageMarketBoardRequestItemListingInfo r) = .ok (.marketBoardRequestItemListingInfo r) := by
  have hl := length_encodeMessageMarketBoardRequestItemListingInfo r wf
  have hd := decode_encodeMessageMarketBoardRequestItemListingInfo r wf []
  have e : encodeMessageMarketBoardRequestItemListingInfo r = encodeMessageHeader r.Header ++
      (PutUint32 r.CatalogID ++ PutUint32 r.RequestID) := by
    simp only [encodeMessageMarketBoardRequestItemListingInfo, List.append_assoc]
  rw [e] at hl hd ⊢
  rw [NewMessage_typed _ _ r.Header wf.1 rfl hct 40 hl hlen parseMessageMarketBoardRequestItemListingInfo
    (by rw [hty, messageParsers_marketBoardRequestItemListingInfo])]
  rw [parseMessageMarketBoardRequestItemListingInfo, MessageMarketBoardRequestItemListingInfoSize_eq, if_neg (fun hne => hne hl),
    MessageMarketBoardRequestItemListingInfoT_dataSize, binaryRead_encode _ _ _ r hl hd]
  rfl

theorem staticSize_values :
    staticSize 0x01F8 = 72 ∧ staticSize 0x038F = 48 ∧ staticSize 0x025F = 1560 ∧
    staticSize 0x0186 = 1080 ∧ staticSize 0x032C = 208 ∧ staticSize 0x0102 = 40 := by
  simp [staticSize, MessageMarketTaxRatesSize_eq, MessageMarketBoardItemListingCountSize_eq,
    MessageMarketBoardItemListingSize_eq, MessageMarketBoardItemListingHistorySize_eq,
    MessageMarketBoardSearchResultSize_eq, MessageMarketBoardRequestItemListingInfoSize_eq]

theorem staticSize_of_mem (t : Nat) (ht : t ∈ registeredTags) :
    ∃ mp, messageParsers t = some mp ∧
      ∀ b : List Byte, b.length ≠ staticSize t → mp b = .error .invalidMessageSize := by
  simp only [registeredTags, List.mem_cons, List.mem_singleton, List.mem_nil_iff, or_false] at ht
  rcases ht with h | h | h | h | h | h <;> subst h
  · exact ⟨_, messageParsers_marketBoardItemListing, fun b hb => if_pos hb⟩
  · exact ⟨_, messageParsers_marketBoardItemListingCount, fun b hb => if_pos hb⟩
  · exact ⟨_, messageParsers_marketBoardItemListingHistory, fun b hb => if_pos hb⟩
  · exact ⟨_, messageParsers_marketBoardRequestItemListingInfo, fun b hb => if_pos hb⟩
  · exact ⟨_, messageParsers_marketBoardSearchResult, fun b hb => if_pos hb⟩
  · exact ⟨_, messageParsers_marketTaxRates, fun b hb => if_pos hb⟩

theorem array_eq {α : Type} (elem : Decoder α) (sz : Nat)
    (hel : ∀ d, (elem d).2 = d.drop sz) (n : Nat) (d : List Byte) :
    Decoder.array elem n d =
      ((List.range n).map (fun i => (elem (d.drop (i * sz))).1), d.drop (n * sz)) :=
  Prod.ext (array_fst elem sz hel n d) (array_snd elem sz hel n d)

theorem decodeBundleHeader_fst (d : List Byte) (h : 38 ≤ d.length) :
    (decodeBundleHeader d).1 =
      { Magic := (List.range 4).map (fun i => littleEndian (slice d (4 * i) (4 * i + 4)))
        Timestamp := littleEndian (slice d 16 24)
        Length := littleEndian (slice d 24 28)
        Connection := littleEndian (slice d 28 30)
        Count := littleEndian (slice d 30 32)
        Encoding := littleEndian (slice d 32 34)
        Unknown := slice d 34 38 } := by
  have a0 := array_eq Decoder.uint32 4 (fun _ => rfl) 4 d
  have hr : List.range 4 = [0, 1, 2, 3] := rfl
  have m0 := Uint32_drop d 0 (by omega)
  have m1 := Uint32_drop d 4 (by omega)
  have m2 := Uint32_drop d 8 (by omega)
  have m3 := Uint32_drop d 12 (by omega)
  have e1 := Uint64_drop d 16 (by omega)
  have e2 := Uint32_drop d 24 (by omega)
  have e3 := Uint16_drop d 28 (by omega)
  have e4 := Uint16_drop d 30 (by omega)
  have e5 := Uint16_drop d 32 (by omega)
  have e6 := array_uint8_drop 4 34 d (by omega)
  simp only [Nat.reduceAdd] at m0 m1 m2 m3 e1 e2 e3 e4 e5 e6
  simp only [decodeBundleHeader, a0, hr, List.map_cons, List.map_nil, Decoder.uint32,
    Decoder.uint64, Decoder.uint16, List.drop_drop, Nat.reduceAdd, Nat.reduceMul, m0, m1, m2, m3,
    e1, e2, e3, e4, e5, e6]

theorem NewBundleHeader_of_length (b : List Byte) (h : b.length = 40) :
    NewBundleHeader b = .ok (decodeBundleHeader (b.take 38)).1 := by
  rw [NewBundleHeader, BundleHeaderSize, if_neg (fun hne => hne h), BundleHeaderT_dataSize,
    binaryRead_ok _ _ _ (by omega)]

/-! ## Bytes consumed by each decoder

Each field-by-field decoder consumes exactly the packed size of its struct, the number
of bytes `binary.Read` hands to it. -/

theorem decodeBundleHeader_snd (d : List Byte) :
    (decodeBundleHeader d).2 = d.drop BundleHeaderT.dataSize := by
  have a1 := array_snd Decoder.uint32 4 (fun _ => rfl) 4
  have a2 := array_snd Decoder.uint8 1 (fun _ => rfl) 4
  simp only [decodeBundleHeader, Decoder.uint64, Decoder.uint32, Decoder.uint16, List.drop_drop,
    Nat.reduceAdd, a1, a2, Nat.reduceMul, BundleHeaderT_dataSize]

theorem decodeMessageMarketTaxRates_snd (d : List Byte) :
    (decodeMessageMarketTaxRates d).2 = d.drop MessageMarketTaxRatesT.dataSize := by
  have a1 := array_snd Decoder.uint8 1 (fun _ => rfl) 8
  have a2 := array_snd Decoder.uint32 4 (fun _ => rfl) 6
  simp only [decodeMessageMarketTaxRates, decodeMessageHeader_snd, List.drop_drop, Nat.reduceAdd,
    a1, a2, townCount, Nat.reduceMul, MessageMarketTaxRatesT_dataSize]

theorem decodeMessageMarketBoardItemListingCount_snd (d : List Byte) :
    (decodeMessageMarketBoardItemListingCount d).2 =
      d.drop MessageMarketBoardItemListingCountT.dataSize := by
  have a1 := array_snd Decoder.uint8 1 (fun _ => rfl) 4
  simp only [decodeMessageMarketBoardItemListingCount, decodeMessageHeader_snd, Decoder.uint32,
    Decoder.uint16, List.drop_drop, Nat.reduceAdd, a1, Nat.reduceMul,
    MessageMarketBoardItemListingCountT_dataSize]

theorem decodeMarketItemListing_snd (d : List Byte) :
    (decodeMarketItemListing d).2 = d.drop 152 := by
  have a1 := array_snd Decoder.uint16 2 (fun _ => rfl) 5
  have a2 := array_snd Decoder.uint8 1 (fun _ => rfl) 6
  have a3 := array_snd Decoder.uint8 1 (fun _ => rfl) 32
  simp only [decodeMarketItemListing, Decoder.uint64, Decoder.uint32, Decoder.uint16,
    Decoder.uint8, Decoder.bool, List.drop_drop, Nat.reduceAdd, a1, a2, a3, Nat.reduceMul]

theorem decodeMessageMarketBoardItemListing_snd (d : List Byte) :
    (decodeMessageMarketBoardItemListing d).2 =
      d.drop MessageMarketBoardItemListingT.dataSize := by
  have a1 := array_snd decodeMarketItemListing 152 decodeMarketItemListing_snd 10
  have a2 := array_snd Decoder.uint8 1 (fun _ => rfl) 4
  simp only [decodeMessageMarketBoardItemListing, decodeMessageHeader_snd, Decoder.uint16,
    Decoder.uint8, List.drop_drop, Nat.reduceAdd, a1, a2, Nat.reduceMul,
    MessageMarketBoardItemListingT_dataSize]

theorem decodeMarketHistoryListing_snd (d : List Byte) :
    (decodeMarketHistoryListing d).2 = d.drop 52 := by
  have a1 := array_snd Decoder.uint8 1 (fun _ => rfl) 33
  simp only [decodeMarketHistoryListing, Decoder.uint32, Decoder.uint8, List.drop_drop,
    Nat.reduceAdd, a1, Nat.reduceMul]

theorem decodeMessageMarketBoardItemListingHistory_snd (d : List Byte) :
    (decodeMessageMarketBoardItemListingHistory d).2 =
      d.drop MessageMarketBoardItemListingHistoryT.dataSize := by
  have a1 := array_snd Decoder.uint32 4 (fun _ => rfl) 2
  have a2 := array_snd decodeMarketHistoryListing 52 decodeMarketHistoryListing_snd 20
  simp only [decodeMessageMarketBoardItemListingHistory, decodeMessageHeader_snd, List.drop_drop,
    Nat.reduceAdd, a1, a2, Nat.reduceMul, MessageMarketBoardItemListingHistoryT_dataSize]

theorem decodeMarketBoardItem_snd (d : List Byte) : (decodeMarketBoardItem d).2 = d.drop 8 := by
  simp only [decodeMarketBoardItem, Decoder.uint32, Decoder.uint16, List.drop_drop,
    Nat.reduceAdd]

theorem decodeMessageMarketBoardSearchResult_snd (d : List Byte) :
    (decodeMessageMarketBoardSearchResult d).2 =
      d.drop MessageMarketBoardSearchResultT.dataSize := by
  have a1 := array_snd decodeMarketBoardItem 8 decodeMarketBoardItem_snd 20
  have a2 := array_snd Decoder.uint8 1 (fun _ => rfl) 4
  simp only [decodeMessageMarketBoardSearchResult, decodeMessageHeader_snd, Decoder.uint32,
    List.drop_drop, Nat.reduceAdd, a1, a2, Nat.reduceMul,
    MessageMarketBoardSearchResultT_dataSize]

theorem decodeMessageMarketBoardRequestItemListingInfo_snd (d : List Byte) :
    (decodeMessageMarketBoardRequestItemListingInfo d).2 =
      d.drop MessageMarketBoardRequestItemListingInfoT.dataSize := by
  simp only [decodeMessageMarketBoardRequestItemListingInfo, decodeMessageHeader_snd,
    Decoder.uint32, List.drop_drop, Nat.reduceAdd,
    MessageMarketBoardRequestItemListingInfoT_dataSize]

/-! ## Outcomes of the entry points, the codecs and the header bytes -/

theorem binaryRead_of_le {α : Type} (size : Nat) (decode : Decoder α) (r : List Byte)
    (h : size ≤ r.length) : ∃ v, binaryRead size decode r = .ok v :=
  ⟨_, binaryRead_ok size decode r h⟩

theorem parser_outcome (t : Nat) (mp : MessageParser) (h : messageParsers t = some mp)
    (b : List Byte) : mp b = .error .invalidMessageSize ∨ ∃ m, mp b = .ok m := by
  have key : ∀ {α : Type} (n size : Nat) (dec : Decoder α) (f : α → Message), size ≤ n →
      ((if b.length ≠ n then Result.error Err.invalidMessageSize
        else (binaryRead size dec b).map f) = .error .invalidMessageSize ∨
       ∃ m, (if b.length ≠ n then Result.error Err.invalidMessageSize
        else (binaryRead size dec b).map f) = .ok m) := by
    intro α n size dec f hle
    by_cases hb : b.length ≠ n
    · left
      rw [if_pos hb]
    · right
      have hb2 : b.length = n := Classical.not_not.mp hb
      rw [if_neg hb, binaryRead_ok _ _ _ (by omega)]
      exact ⟨_, rfl⟩
  unfold messageParsers at h
  split_ifs at h <;> cases h
  · exact key _ _ _ _ (by decide)
  · exact key _ _ _ _ (by decide)
  · exact key _ _ _ _ (by decide)
  · exact key _ _ _ _ (by decide)
  · exact key _ _ _ _ (by decide)
  · exact key _ _ _ _ (by decide)

theorem NewMessage_outcome (b : List Byte) :
    (∃ m, NewMessage b = .ok m) ∨ NewMessage b = .error .messageLengthTooSmall ∨
    NewMessage b = .error .messageLengthInvalid ∨
    NewMessage b = .error .unrecognizedMessageType ∨
    NewMessage b = .error .invalidMessageSize := by
  by_cases h32 : 32 ≤ b.length
  · rw [NewMessage_of_le b h32]
    split
    · exact Or.inr (Or.inr (Or.inl rfl))
    · split
      · exact Or.inl ⟨_, rfl⟩
      · split
        · exact Or.inr (Or.inr (Or.inr (Or.inl rfl)))
        · rename_i mp hmp
          rcases parser_outcome _ mp hmp b with h | ⟨m, h⟩
          · exact Or.inr (Or.inr (Or.inr (Or.inr h)))
          · exact Or.inl ⟨m, h⟩
  · right
    left
    rw [NewMessage, MessageHeaderSize_eq, if_pos (by omega)]

theorem NewMessage_ne_tooSmall (b : List Byte) (h32 : 32 ≤ b.length) :
    NewMessage b ≠ .error .messageLengthTooSmall := by
  rw [NewMessage_of_le b h32]
  split
  · exact fun h => Err.noConfusion (Result.error.inj h)
  · split
    · exact fun h => Result.noConfusion h
    · split
      · exact fun h => Err.noConfusion (Result.error.inj h)
      · rename_i mp hmp
        rcases parser_outcome _ mp hmp b with h | ⟨m, h⟩
        · rw [h]
          exact fun h => Err.noConfusion (Result.error.inj h)
        · rw [h]
          exact fun h => Result.noConfusion h

theorem decoderMap_none (z : Zlib) (t : Nat) (h : t ∉ knownEncodings) :
    decoderMap z t = none := by
  simp only [knownEncodings, List.mem_cons, List.mem_singleton, not_or, List.mem_nil_iff,
    not_false_eq_true, and_true] at h
  obtain ⟨h1, h2, h3, h4⟩ := h
  simp only [decoderMap, h1, h2, h3, h4, if_false]

theorem decodeZlib_ne_error (z : Zlib) (data : List Byte) (e : Err) :
    decodeZlib z data ≠ .error e := by
  unfold decodeZlib
  split
  · exact fun h => Result.noConfusion h
  · exact fun h => Result.noConfusion h


theorem byte_ext (a b : Byte) (h : a.toNat = b.toNat) : a = b := by
  cases a with
  | mk va =>
    cases b with
    | mk vb =>
      have : va = vb := BitVec.eq_of_toNat_eq h
      rw [this]

theorem ofNat_eq_of_mod (a : Byte) (n : Nat) (h : n % 256 = a.toNat) : UInt8.ofNat n = a :=
  byte_ext _ _ (by rw [toNat_ofNat_byte, h])

theorem PutUint16_littleEndian (bs : List Byte) (h : bs.length = 2) :
    PutUint16 (littleEndian bs) = bs := by
  match bs, h with
  | [a, b], _ =>
    have ha := a.toNat_lt
    have hb := b.toNat_lt
    simp only [PutUint16, littleEndian, Nat.shiftRight_eq_div_pow]
    rw [ofNat_eq_of_mod a _ (by omega), ofNat_eq_of_mod b _ (by omega)]

theorem PutUint32_littleEndian (bs : List Byte) (h : bs.length = 4) :
    PutUint32 (littleEndian bs) = bs := by
  match bs, h with
  | [a, b, c, d], _ =>
    have ha := a.toNat_lt
    have hb := b.toNat_lt
    have hc := c.toNat_lt
    have hd := d.toNat_lt
    simp only [PutUint32, littleEndian, Nat.shiftRight_eq_div_pow]
    rw [ofNat_eq_of_mod a _ (by omega), ofNat_eq_of_mod b _ (by omega),
      ofNat_eq_of_mod c _ (by omega), ofNat_eq_of_mod d _ (by omega)]

theorem length_slice (b : List Byte) (lo hi : Nat) (h : hi ≤ b.length) :
    (slice b lo hi).length = hi - lo := by
  simp only [slice, List.length_drop, List.length_take]
  omega

theorem slice_append_slice (b : List Byte) (lo mid hi : Nat) (h1 : lo ≤ mid) (h2 : mid ≤ hi) :
    slice b lo mid ++ slice b mid hi = slice b lo hi := by
  have e : (b.take hi).take mid = b.take mid := by
    rw [List.take_take, Nat.min_eq_left h2]
  have e2 : ((b.take hi).drop lo).take (mid - lo) = (b.take mid).drop lo := by
    rw [List.take_drop, Nat.add_sub_cancel' h1, e]
  have e3 : ((b.take hi).drop lo).drop (mid - lo) = (b.take hi).drop mid := by
    rw [List.drop_drop]
    congr 1
    omega
  rw [slice, slice, slice, ← e2, ← e3, List.take_append_drop]

theorem encodeMessageHeader_headerAt (b : List Byte) (h : 32 ≤ b.length) :
    encodeMessageHeader (headerAt b) = b.take 32 := by
  simp only [encodeMessageHeader, headerAt,
    PutUint32_littleEndian _ (length_slice b 0 4 (by omega)),
    PutUint32_littleEndian _ (length_slice b 4 8 (by omega)),
    PutUint32_littleEndian _ (length_slice b 8 12 (by omega)),
    PutUint16_littleEndian _ (length_slice b 12 14 (by omega)),
    PutUint16_littleEndian _ (length_slice b 18 20 (by omega)),
    PutUint16_littleEndian _ (length_slice b 22 24 (by omega)),
    PutUint32_littleEndian _ (length_slice b 24 28 (by omega)),
    PutUint32_littleEndian _ (length_slice b 28 32 (by omega))]
  rw [slice_append_slice b 0 4 8 (by omega) (by omega),
    slice_append_slice b 0 8 12 (by omega) (by omega),
    slice_append_slice b 0 12 14 (by omega) (by omega),
    slice_append_slice b 0 14 18 (by omega) (by omega),
    slice_append_slice b 0 18 20 (by omega) (by omega),
    slice_append_slice b 0 20 22 (by omega) (by omega),
    slice_append_slice b 0 22 24 (by omega) (by omega),
    slice_append_slice b 0 24 28 (by omega) (by omega),
    slice_append_slice b 0 28 32 (by omega) (by omega)]
  rfl


theorem headerAt_take_of_le (b : List Byte) (n : Nat) (h : 32 ≤ n) :
    headerAt (b.take n) = headerAt b := by
  rw [← headerAt_take (b.take n), List.take_take, Nat.min_eq_left h, headerAt_take]

theorem parsed_header {α : Type} (n size : Nat) (dec : Decoder α) (f : α → Message)
    (hsize : 32 ≤ size) (hle : size ≤ n)
    (hdec : ∀ d, (f (dec d).1).Header = (decodeMessageHeader d).1)
    (b : List Byte) (m : Message)
    (h : (if b.length ≠ n then Result.error Err.invalidMessageSize
      else (binaryRead size dec b).map f) = .ok m) : m.Header = headerAt b := by
  by_cases hb : b.length ≠ n
  · rw [if_pos hb] at h
    exact Result.noConfusion h
  · have hb2 : b.length = n := Classical.not_not.mp hb
    rw [if_neg hb, binaryRead_ok _ _ _ (by omega)] at h
    have hm : f (dec (b.take size)).1 = m := Result.ok.inj h
    rw [← hm, hdec, decodeMessageHeader_fst _ (by rw [List.length_take]; omega),
      headerAt_take_of_le b size hsize]

theorem parser_header (t : Nat) (mp : MessageParser) (h : messageParsers t = some mp)
    (b : List Byte) (m : Message) (hm : mp b = .ok m) : m.Header = headerAt b := by
  unfold messageParsers at h
  split_ifs at h <;> cases h <;> refine parsed_header _ _ _ _ ?_ ?_ ?_ b m hm <;>
    first
    | decide
    | exact fun _ => rfl

theorem NewMessage_ok_header (b : List Byte) (m : Message) (h : NewMessage b = .ok m) :
    32 ≤ b.length ∧ m.Header = headerAt b ∧ b.length % 2 ^ 32 = declaredLength b := by
  by_cases h32 : 32 ≤ b.length
  · refine ⟨h32, ?_⟩
    rw [NewMessage_of_le b h32] at h
    by_cases hl : b.length % 2 ^ 32 ≠ declaredLength b
    · rw [if_pos hl] at h
      exact Result.noConfusion h
    · have hl2 : b.length % 2 ^ 32 = declaredLength b := Classical.not_not.mp hl
      refine ⟨?_, hl2⟩
      rw [if_neg hl] at h
      by_cases hc : controlType b ≠ 3
      · rw [if_pos hc] at h
        rw [← Result.ok.inj h]
        rfl
      · rw [if_neg hc] at h
        cases hp : messageParsers (messageType b) with
        | none =>
          rw [hp] at h
          exact Result.noConfusion h
        | some mp =>
          rw [hp] at h
          exact parser_header _ mp hp b m h
  · rw [NewMessage, MessageHeaderSize_eq, if_pos (by omega)] at h
    exact Result.noConfusion h


theorem getD_drop (d : List Byte) (k : Nat) (x : Byte) : (d.drop k).getD 0 x = d.getD k x := by
  simp [List.getD_eq_getElem?_getD]

theorem decodeMarketItemListing_fields (e : List Byte) :
    (decodeMarketItemListing e).1.ListingID = Uint64 e ∧
    (decodeMarketItemListing e).1.PricePerUnit = Uint32 (e.drop 32) ∧
    (decodeMarketItemListing e).1.RetainerName =
      (Decoder.array Decoder.uint8 32 (e.drop 76)).1 ∧
    (decodeMarketItemListing e).1.HQ = ((e.drop 140).getD 0 0 != 0) ∧
    (decodeMarketItemListing e).1.DyeID = Uint16 (e.drop 144) := by
  have a1 := array_snd Decoder.uint16 2 (fun _ => rfl) 5
  have a2 := array_snd Decoder.uint8 1 (fun _ => rfl) 6
  have a3 := array_snd Decoder.uint8 1 (fun _ => rfl) 32
  simp only [decodeMarketItemListing, Decoder.uint64, Decoder.uint32, Decoder.uint16,
    Decoder.uint8, Decoder.bool, List.drop_drop, Nat.reduceAdd, a1, a2, a3, Nat.reduceMul,
    and_self]

theorem decodeMessageMarketBoardItemListing_fields (d : List Byte) :
    (decodeMessageMarketBoardItemListing d).1.Listing =
      (List.range 10).map (fun i => (decodeMarketItemListing (d.drop (32 + i * 152))).1) ∧
    (decodeMessageMarketBoardItemListing d).1.ListingIndexEnd = d.getD 1552 0 ∧
    (decodeMessageMarketBoardItemListing d).1.ListingIndexStart = d.getD 1553 0 ∧
    (decodeMessageMarketBoardItemListing d).1.RequestID = Uint16 (d.drop 1554) := by
  have a1 := array_eq decodeMarketItemListing 152 decodeMarketItemListing_snd 10
  simp only [decodeMessageMarketBoardItemListing, decodeMessageHeader_snd, a1, Decoder.uint8,
    Decoder.uint16, List.drop_drop, Nat.reduceAdd, Nat.reduceMul, getD_drop, and_self]


theorem NewMessage_itemListing_value (b : List Byte) (hlen : b.length = 1560)
    (hdecl : declaredLength b = 1560) (hct : controlType b = 3)
    (hty : messageType b = 0x025F) :
    NewMessage b =
      .ok (.marketBoardItemListing (decodeMessageMarketBoardItemListing b).1) := by
  rw [NewMessage_of_le b (by omega), hlen, hdecl, hct, hty, messageParsers_marketBoardItemListing]
  simp only [ne_eq, Nat.reduceMod, Nat.reducePow, not_true_eq_false, if_false]
  rw [parseMessageMarketBoardItemListing, MessageMarketBoardItemListingSize_eq,
    if_neg (fun hne => hne hlen), MessageMarketBoardItemListingT_dataSize,
    binaryRead_ok _ _ _ (by omega), List.take_of_length_le (by omega)]
  rfl

/-! ## The magic identifier -/

/-- C1 (the code departs from the claim). The buffer `wrappedBuffer` has `2 ^ 32 + 32`
bytes and its header declares a length of 32, so the declared length differs from the
length of the buffer; still `NewMessage` does not answer "message length invalid" but
accepts the buffer and returns the header-only message, because `uint32(len(b))` keeps
only the low 32 bits of the length. -/
theorem NewMessage_wrappedBuffer :
    MessageHeaderSize ≤ wrappedBuffer.length ∧
    wrappedBuffer.length = 2 ^ 32 + 32 ∧
    declaredLength wrappedBuffer = 32 ∧
    declaredLength wrappedBuffer ≠ wrappedBuffer.length ∧
    NewMessage wrappedBuffer ≠ .error .messageLengthInvalid ∧
    NewMessage wrappedBuffer = .ok (.header
      { Length := 32, SourceActorID := 0, TargetActorID := 0, ControlType := 0,
        Unknown1 := [0, 0, 0, 0], MessageType := 0, Unknown2 := [0, 0], ServerID := 0,
        Timestamp := 0, Unknown3 := 0 }) := by
  have hl : wrappedBuffer.length = 2 ^ 32 + 32 := by
    rw [wrappedBuffer, List.length_append, List.length_replicate]
    rfl
  have hd : declaredLength wrappedBuffer = 32 := by
    have : slice wrappedBuffer 0 4 = slice shortHeader 0 4 := by
      have ht : wrappedBuffer.take 32 = shortHeader := List.take_left' rfl
      rw [← slice_take _ 0 4 32 (by omega), ht]
    rw [declaredLength, this]
    decide
  have hv : NewMessage wrappedBuffer = .ok (.header (headerAt shortHeader)) := by
    rw [wrappedBuffer, NewMessage_append_of_header shortHeader _ rfl, List.length_replicate]
    have h1 : declaredLength shortHeader = 32 := by decide
    have h2 : controlType shortHeader = 0 := by decide
    rw [h1, h2]
    rfl
  have hh : headerAt shortHeader =
      { Length := 32, SourceActorID := 0, TargetActorID := 0, ControlType := 0,
        Unknown1 := [0, 0, 0, 0], MessageType := 0, Unknown2 := [0, 0], ServerID := 0,
        Timestamp := 0, Unknown3 := 0 } := by decide
  refine ⟨?_, hl, hd, ?_, ?_, ?_⟩
  · rw [hl, MessageHeaderSize_eq]
    decide
  · rw [hd, hl]
    decide
  · rw [hv]
    exact fun h => Result.noConfusion h
  · rw [hv, hh]

/-- C2. Round trip: for a typed record `m` of any of the six registered variants that
is a value of its Go type, with `ControlType = 3`, `Type` the tag of its variant and
`Length` the static size of that variant, `NewMessage` applied to the packed
little-endian encoding of `m` succeeds and returns `m` itself, every field included. -/
theorem NewMessage_encodeMessage (m : Message) (t : Nat) (htag : m.tag = some t) (wf : m.WF)
    (hct : m.Header.ControlType = 3) (hty : m.Header.MessageType = t)
    (hlen : m.Header.Length = staticSize t) :
    NewMessage (encodeMessage m) = .ok m := by
  obtain ⟨s1, s2, s3, s4, s5, s6⟩ := staticSize_values
  cases m with
  | header r => exact Option.noConfusion htag
  | bytes r => exact Option.noConfusion htag
  | marketTaxRates r =>
    have ht : 0x01F8 = t := Option.some.inj htag
    subst ht
    exact NewMessage_encodeMessageMarketTaxRates r wf hct hty (hlen.trans s1)
  | marketBoardItemListingCount r =>
    have ht : 0x038F = t := Option.some.inj htag
    subst ht
    exact NewMessage_encodeMessageMarketBoardItemListingCount r wf hct hty (hlen.trans s2)
  | marketBoardItemListing r =>
    have ht : 0x025F = t := Option.some.inj htag
    subst ht
    exact NewMessage_encodeMessageMarketBoardItemListing r wf hct hty (hlen.trans s3)
  | marketBoardItemListingHistory r =>
    have ht : 0x0186 = t := Option.some.inj htag
    subst ht
    exact NewMessage_encodeMessageMarketBoardItemListingHistory r wf hct hty (hlen.trans s4)
  | marketBoardSearchResult r =>
    have ht : 0x032C = t := Option.some.inj htag
    subst ht
    exact NewMessage_encodeMessageMarketBoardSearchResult r wf hct hty (hlen.trans s5)
  | marketBoardRequestItemListingInfo r =>
    have ht : 0x0102 = t := Option.some.inj htag
    subst ht
    exact NewMessage_encodeMessageMarketBoardRequestItemListingInfo r wf hct hty (hlen.trans s6)


/-- Witness of C2: the round trip of a sample tax-rate record. -/
theorem NewMessage_encodeMessage_witness :
    (sampleTaxRates.tag = some 0x01F8 ∧ sampleTaxRates.WF ∧
      sampleTaxRates.Header.ControlType = 3 ∧ sampleTaxRates.Header.MessageType = 0x01F8 ∧
      sampleTaxRates.Header.Length = staticSize 0x01F8) ∧
    NewMessage (encodeMessage sampleTaxRates) = .ok sampleTaxRates :=
  ⟨by decide, NewMessage_encodeMessage sampleTaxRates 0x01F8 rfl (by decide) rfl rfl (by decide)⟩

/-- C3. For a registered tag `t` and a buffer holding a header with `ControlType = 3`,
`Type = t` and a declared length equal to the length of the buffer, `NewMessage` fails
with "invalid message size" whenever the length of the buffer differs from the static
size of the record of `t` (so also when it is one byte shorter or longer). -/
theorem NewMessage_invalidMessageSize (b : List Byte) (t : Nat) (ht : t ∈ registeredTags)
    (h32 : MessageHeaderSize ≤ b.length) (hct : controlType b = 3) (hty : messageType b = t)
    (hlen : declaredLength b = b.length) (hsize : b.length ≠ staticSize t) :
    NewMessage b = .error .invalidMessageSize := by
  obtain ⟨mp, hmp, herr⟩ := staticSize_of_mem t ht
  rw [MessageHeaderSize_eq] at h32
  rw [NewMessage_of_le b h32, mod_of_declaredLength b hlen, hct, hty, hmp]
  simpa using herr b hsize


/-- Witness of C3: a frame tagged 0x0102 that is one byte longer than its record. -/
theorem NewMessage_invalidMessageSize_witness :
    (0x0102 ∈ registeredTags ∧ MessageHeaderSize ≤ oneByteLonger.length ∧
      controlType oneByteLonger = 3 ∧ messageType oneByteLonger = 0x0102 ∧
      declaredLength oneByteLonger = oneByteLonger.length ∧
      oneByteLonger.length = staticSize 0x0102 + 1) ∧
    NewMessage oneByteLonger = .error .invalidMessageSize :=
  ⟨by decide, NewMessage_invalidMessageSize oneByteLonger 0x0102 (by decide) (by decide)
    (by decide) (by decide) (by decide) (by decide)⟩

/-- C4. For a buffer of at least 32 bytes whose declared length is its length and whose
control type is not 3, `NewMessage` returns the header-only message, the header being
the one `NewMessageHeader` decodes from `b[0:32]`; nothing is assumed of the message
type or of the length, and every buffer of the same length with the same first 32
bytes gives the same result. -/
theorem NewMessage_header_only (b : List Byte) (h32 : MessageHeaderSize ≤ b.length)
    (hlen : declaredLength b = b.length) (hct : controlType b ≠ 3) :
    ∃ mh, NewMessageHeader (slice b 0 MessageHeaderSize) = .ok mh ∧
      NewMessage b = .ok (.header mh) ∧
      ∀ b2 : List Byte, b2.length = b.length →
        slice b2 0 MessageHeaderSize = slice b 0 MessageHeaderSize →
        NewMessage b2 = .ok (.header mh) := by
  rw [MessageHeaderSize_eq] at h32 ⊢
  have hs : ∀ c : List Byte, slice c 0 32 = c.take 32 := fun c => rfl
  refine ⟨headerAt b, ?_, ?_, ?_⟩
  · rw [hs, NewMessageHeader_take b h32]
  · rw [NewMessage_of_le b h32, mod_of_declaredLength b hlen]
    simp [hct]
  · intro b2 hl2 htake
    rw [hs, hs] at htake
    have e : ∀ lo hi, hi ≤ 32 → slice b2 lo hi = slice b lo hi := by
      intro lo hi hhi
      rw [← slice_take b2 lo hi 32 hhi, htake, slice_take b lo hi 32 hhi]
    have hh : headerAt b2 = headerAt b := by
      rw [← headerAt_take b2, htake, headerAt_take]
    have d1 : declaredLength b2 = declaredLength b :=
      congrArg littleEndian (e 0 4 (by omega))
    have d2 : controlType b2 = controlType b :=
      congrArg littleEndian (e 12 14 (by omega))
    rw [NewMessage_of_le b2 (by omega), hl2, d1, d2, hh, mod_of_declaredLength b hlen]
    simp [hct]


/-- Witness of C4: a 33-byte frame with control type 2 and the registered tag 0x025F. -/
theorem NewMessage_header_only_witness :
    (MessageHeaderSize ≤ controlFrame.length ∧
      declaredLength controlFrame = controlFrame.length ∧ controlType controlFrame ≠ 3 ∧
      messageType controlFrame ∈ registeredTags ∧
      controlFrame.length ≠ staticSize (messageType controlFrame)) ∧
    ∃ mh, NewMessageHeader (slice controlFrame 0 MessageHeaderSize) = .ok mh ∧
      NewMessage controlFrame = .ok (.header mh) ∧
      ∀ b2 : List Byte, b2.length = controlFrame.length →
        slice b2 0 MessageHeaderSize = slice controlFrame 0 MessageHeaderSize →
        NewMessage b2 = .ok (.header mh) :=
  ⟨⟨by decide, by decide, by decide, by decide,
      by decide⟩,
    NewMessage_header_only controlFrame (by decide) (by decide) (by decide)⟩

/-- C5. For a buffer of at least 32 bytes whose declared length is its length, with
control type 3 and a message type outside the six registered tags, `NewMessage` fails
with "unrecognized message type"; and for a message type among the six tags it never
returns that error, whatever the buffer. -/
theorem NewMessage_unrecognizedMessageType (b : List Byte) :
    (MessageHeaderSize ≤ b.length → declaredLength b = b.length → controlType b = 3 →
      messageType b ∉ registeredTags → NewMessage b = .error .unrecognizedMessageType) ∧
    (messageType b ∈ registeredTags → NewMessage b ≠ .error .unrecognizedMessageType) := by
  constructor
  · intro h32 hlen hct hty
    rw [MessageHeaderSize_eq] at h32
    rw [NewMessage_of_le b h32, mod_of_declaredLength b hlen, hct, messageParsers_none _ hty]
    simp
  · intro hty
    by_cases h32 : 32 ≤ b.length
    · obtain ⟨mp, hmp, -⟩ := staticSize_of_mem _ hty
      rw [NewMessage_of_le b h32, hmp]
      split
      · intro h
        exact Err.noConfusion (Result.error.inj h)
      · split
        · intro h
          exact Result.noConfusion h
        · exact parser_ne_unrecognized _ mp hmp b
    · rw [NewMessage, MessageHeaderSize_eq, if_pos (by omega)]
      intro h
      exact Err.noConfusion (Result.error.inj h)


/-- Witness of C5: a frame with the tag 0x0103, and a frame with the tag 0x0102. -/
theorem NewMessage_unrecognizedMessageType_witness :
    (MessageHeaderSize ≤ unknownTagFrame.length ∧
      declaredLength unknownTagFrame = unknownTagFrame.length ∧
      controlType unknownTagFrame = 3 ∧ messageType unknownTagFrame ∉ registeredTags ∧
      messageType oneByteLonger ∈ registeredTags) ∧
    NewMessage unknownTagFrame = .error .unrecognizedMessageType ∧
    NewMessage oneByteLonger ≠ .error .unrecognizedMessageType :=
  ⟨by decide,
    (NewMessage_unrecognizedMessageType unknownTagFrame).1 (by decide) (by decide) (by decide)
      (by decide),
    (NewMessage_unrecognizedMessageType oneByteLonger).2 (by decide)⟩

/-- C6. The function `NewBundleHeader` fails with "invalid bundle header size" on every
buffer whose length is not 40, returns a header and no error on every buffer of length
40, and returns the same result for the same bytes. -/
theorem NewBundleHeader_iff (b : List Byte) :
    (b.length ≠ BundleHeaderSize → NewBundleHeader b = .error .invalidBundleHeaderSize) ∧
    (b.length = BundleHeaderSize → ∃ h, NewBundleHeader b = .ok h) ∧
    (∀ b2 : List Byte, b2 = b → NewBundleHeader b2 = NewBundleHeader b) ∧
    BundleHeaderSize = 40 := by
  refine ⟨fun hne => ?_, fun he => ?_, fun b2 e => ?_, rfl⟩
  · rw [NewBundleHeader, if_pos hne]
  · exact ⟨_, NewBundleHeader_of_length b he⟩
  · rw [e]


/-- Witness of C6: a 40-byte buffer and its first 39 bytes. -/
theorem NewBundleHeader_iff_witness :
    ((sampleBundle.take 39).length ≠ BundleHeaderSize ∧ sampleBundle.length = BundleHeaderSize) ∧
    NewBundleHeader (sampleBundle.take 39) = .error .invalidBundleHeaderSize ∧
    ∃ h, NewBundleHeader sampleBundle = .ok h :=
  ⟨by decide, (NewBundleHeader_iff (sampleBundle.take 39)).1 (by decide),
    (NewBundleHeader_iff sampleBundle).2.1 (by decide)⟩

/-- C7. For a 40-byte buffer the header returned by `NewBundleHeader` has `Magic[i]` the
little-endian value of bytes `4i..4i+4`, `Timestamp` of bytes 16..24, `Length` of bytes
24..28, `Connection`, `Count` and `Encoding` of bytes 28..30, 30..32 and 32..34, and
`Unknown` the bytes 34..38; the fields take 38 bytes, and two 40-byte buffers that agree
on their first 38 bytes decode to the same header. -/
theorem NewBundleHeader_fields (b : List Byte) (h : b.length = 40) :
    NewBundleHeader b = .ok
      { Magic := (List.range 4).map (fun i => littleEndian (slice b (4 * i) (4 * i + 4)))
        Timestamp := littleEndian (slice b 16 24)
        Length := littleEndian (slice b 24 28)
        Connection := littleEndian (slice b 28 30)
        Count := littleEndian (slice b 30 32)
        Encoding := littleEndian (slice b 32 34)
        Unknown := slice b 34 38 } ∧
    BundleHeaderT.dataSize = 38 ∧
    ∀ b2 : List Byte, b2.length = 40 → slice b2 0 38 = slice b 0 38 →
      NewBundleHeader b2 = NewBundleHeader b := by
  refine ⟨?_, BundleHeaderT_dataSize, ?_⟩
  · rw [NewBundleHeader_of_length b h, decodeBundleHeader_fst _ (by simp; omega)]
    have hr : List.range 4 = [0, 1, 2, 3] := rfl
    simp only [hr, List.map_cons, List.map_nil, Nat.reduceMul, Nat.reduceAdd,
      slice_take b _ _ 38 (by omega : 4 ≤ 38), slice_take b _ _ 38 (by omega : 8 ≤ 38),
      slice_take b _ _ 38 (by omega : 12 ≤ 38), slice_take b _ _ 38 (by omega : 16 ≤ 38),
      slice_take b _ _ 38 (by omega : 24 ≤ 38), slice_take b _ _ 38 (by omega : 28 ≤ 38),
      slice_take b _ _ 38 (by omega : 30 ≤ 38), slice_take b _ _ 38 (by omega : 32 ≤ 38),
      slice_take b _ _ 38 (by omega : 34 ≤ 38), slice_take b _ _ 38 (by omega : 38 ≤ 38)]
  · intro b2 h2 e
    have e2 : b2.take 38 = b.take 38 := e
    rw [NewBundleHeader_of_length b h, NewBundleHeader_of_length b2 h2, e2]


/-- Witness of C7: the fields of the header of a 40-byte buffer. -/
theorem NewBundleHeader_fields_witness :
    sampleBundle.length = 40 ∧
    NewBundleHeader sampleBundle = .ok
      { Magic := [0x03020100, 0x07060504, 0x0B0A0908, 0x0F0E0D0C],
        Timestamp := 0x1716151413121110, Length := 0x1B1A1918, Connection := 0x1D1C,
        Count := 0x1F1E, Encoding := 0x2120, Unknown := [0x22, 0x23, 0x24, 0x25] } :=
  ⟨by decide, (NewBundleHeader_fields sampleBundle (by decide)).1.trans (by decide)⟩

/-- C8. The function `NewMessageHeader` fails with "invalid message header size" on every
buffer whose length is not `MessageHeaderSize` = 32, and on a 32-byte buffer it returns
the header whose fields are the little-endian values (or, for the byte arrays, the
bytes) found at the packed offsets 0, 4, 8, 12, 14, 18, 20, 22, 24 and 28. -/
theorem NewMessageHeader_fields (b : List Byte) :
    MessageHeaderSize = 32 ∧
    (b.length ≠ MessageHeaderSize → NewMessageHeader b = .error .invalidMessageHeaderSize) ∧
    (b.length = MessageHeaderSize → NewMessageHeader b = .ok
      { Length := littleEndian (slice b 0 4)
        SourceActorID := littleEndian (slice b 4 8)
        TargetActorID := littleEndian (slice b 8 12)
        ControlType := littleEndian (slice b 12 14)
        Unknown1 := slice b 14 18
        MessageType := littleEndian (slice b 18 20)
        Unknown2 := slice b 20 22
        ServerID := littleEndian (slice b 22 24)
        Timestamp := littleEndian (slice b 24 28)
        Unknown3 := littleEndian (slice b 28 32) }) := by
  refine ⟨MessageHeaderSize_eq, fun hne => ?_, fun he => ?_⟩
  · rw [NewMessageHeader, if_pos hne]
  · rw [MessageHeaderSize_eq] at he
    rw [NewMessageHeader_of_length b he]
    rfl


/-- Witness of C8: a 32-byte buffer and its first 31 bytes. -/
theorem NewMessageHeader_fields_witness :
    ((sampleHeaderBytes.take 31).length ≠ MessageHeaderSize ∧
      sampleHeaderBytes.length = MessageHeaderSize) ∧
    NewMessageHeader (sampleHeaderBytes.take 31) = .error .invalidMessageHeaderSize ∧
    NewMessageHeader sampleHeaderBytes = .ok (sampleHeader 513 3 0x01F8) :=
  ⟨by decide, (NewMessageHeader_fields (sampleHeaderBytes.take 31)).2.1 (by decide),
    ((NewMessageHeader_fields sampleHeaderBytes).2.2 (by decide)).trans (by decide)⟩

/-- C9. Every size constant, computed as the in-memory size of its Go struct under the
gc layout rules (on 64-bit and on 32-bit targets alike), equals the packed width of the
struct, the sum of the widths of its fields: 32, 72, 48, 1560, 1080, 208 and 40, each
typed record being the 32-byte header followed by its body. -/
theorem size_constants :
    (MessageHeaderSize = 32 ∧ MessageHeaderT.dataSize = 32 ∧ MessageHeaderT.sizeof 4 = 32) ∧
    (MessageMarketTaxRatesSize = 72 ∧ MessageMarketTaxRatesT.dataSize = 72 ∧
      MessageMarketTaxRatesT.sizeof 4 = 72 ∧
      MessageMarketTaxRatesSize = MessageHeaderSize + 8 + townCount * 4 + 8) ∧
    (MessageMarketBoardItemListingCountSize = 48 ∧
      MessageMarketBoardItemListingCountT.dataSize = 48 ∧
      MessageMarketBoardItemListingCountT.sizeof 4 = 48 ∧
      MessageMarketBoardItemListingCountSize = MessageHeaderSize + 4 + 4 + 2 + 2 + 4) ∧
    (MessageMarketBoardItemListingSize = 1560 ∧
      MessageMarketBoardItemListingT.dataSize = 1560 ∧
      MessageMarketBoardItemListingT.sizeof 4 = 1560 ∧
      MarketItemListingT.dataSize = 152 ∧ MarketItemListingT.sizeof 8 = 152 ∧
      MessageMarketBoardItemListingSize =
        MessageHeaderSize + 10 * MarketItemListingT.dataSize + 8) ∧
    (MessageMarketBoardItemListingHistorySize = 1080 ∧
      MessageMarketBoardItemListingHistoryT.dataSize = 1080 ∧
      MessageMarketBoardItemListingHistoryT.sizeof 4 = 1080 ∧
      MarketHistoryListingT.dataSize = 52 ∧ MarketHistoryListingT.sizeof 8 = 52 ∧
      MessageMarketBoardItemListingHistorySize =
        MessageHeaderSize + 8 + 20 * MarketHistoryListingT.dataSize) ∧
    (MessageMarketBoardSearchResultSize = 208 ∧
      MessageMarketBoardSearchResultT.dataSize = 208 ∧
      MessageMarketBoardSearchResultT.sizeof 4 = 208 ∧
      MarketBoardItemT.dataSize = 8 ∧ MarketBoardItemT.sizeof 8 = 8 ∧
      MessageMarketBoardSearchResultSize =
        MessageHeaderSize + 20 * MarketBoardItemT.dataSize + 16) ∧
    (MessageMarketBoardRequestItemListingInfoSize = 40 ∧
      MessageMarketBoardRequestItemListingInfoT.dataSize = 40 ∧
      MessageMarketBoardRequestItemListingInfoT.sizeof 4 = 40 ∧
      MessageMarketBoardRequestItemListingInfoSize = MessageHeaderSize + 4 + 4) := by
  exact ⟨⟨by decide, by decide, by decide⟩,
    ⟨by decide, by decide, by decide, by decide⟩,
    ⟨by decide, by decide, by decide, by decide⟩,
    ⟨by decide, by decide, by decide, by decide, by decide, by decide⟩,
    ⟨by decide, by decide, by decide, by decide, by decide, by decide⟩,
    ⟨by decide, by decide, by decide, by decide, by decide, by decide⟩,
    ⟨by decide, by decide, by decide, by decide⟩⟩

/-- C10. For every buffer of at least `MessageHeaderSize` = 32 bytes, `NewMessageBytes`
succeeds and returns the raw message whose header is the one `NewMessageHeader` decodes
from `b[0:32]` and whose `Bytes` are `b[32:]` unchanged (none when the buffer has 32
bytes); nothing is assumed of the declared length, the control type or the message type. -/
theorem NewMessageBytes_ok (b : List Byte) (h32 : MessageHeaderSize ≤ b.length) :
    ∃ mh, NewMessageHeader (slice b 0 MessageHeaderSize) = .ok mh ∧
      NewMessageBytes b = .ok (.bytes { Header := mh, Bytes := b.drop MessageHeaderSize }) ∧
      (b.length = MessageHeaderSize → b.drop MessageHeaderSize = []) := by
  have h : 32 ≤ b.length := by
    rw [MessageHeaderSize_eq] at h32
    exact h32
  have hs : slice b 0 MessageHeaderSize = b.take MessageHeaderSize := rfl
  refine ⟨headerAt b, ?_, ?_, fun he => ?_⟩
  · rw [hs, MessageHeaderSize_eq, NewMessageHeader_take b h]
  · rw [NewMessageBytes, if_neg (by omega), MessageHeaderSize_eq, NewMessageHeader_take b h]
  · exact List.drop_of_length_le (by omega)


/-- Witness of C10: a 35-byte buffer whose header declares 9 bytes. -/
theorem NewMessageBytes_ok_witness :
    (MessageHeaderSize ≤ rawFrame.length ∧ declaredLength rawFrame ≠ rawFrame.length) ∧
    ∃ mh, NewMessageHeader (slice rawFrame 0 MessageHeaderSize) = .ok mh ∧
      NewMessageBytes rawFrame =
        .ok (.bytes { Header := mh, Bytes := rawFrame.drop MessageHeaderSize }) ∧
      (rawFrame.length = MessageHeaderSize → rawFrame.drop MessageHeaderSize = []) :=
  ⟨by decide, NewMessageBytes_ok rawFrame (by decide)⟩

/-- C11 (the code departs from the claim). On every buffer shorter than
`MessageHeaderSize` = 32 bytes, the empty buffer included, `NewMessageBytes` returns
nothing to its caller: a slice expression is out of range and the call panics. The
sibling entry point `NewMessage` has the guard that is missing here and returns the
error "message length too small" on the same buffers. -/
theorem NewMessageBytes_short (b : List Byte) (h : b.length < MessageHeaderSize) :
    NewMessageBytes b = .panic ∧ NewMessage b = .error .messageLengthTooSmall := by
  constructor
  · rw [NewMessageBytes, if_pos h]
  · rw [NewMessage, if_pos h]

/-- Witness of C11: the empty buffer. -/
theorem NewMessageBytes_short_witness :
    ([] : List Byte).length < MessageHeaderSize ∧
    NewMessageBytes [] = .panic ∧ NewMessage [] = .error .messageLengthTooSmall :=
  ⟨by decide, NewMessageBytes_short [] (by decide)⟩

/-- Counterexample to C12: `NewMessageHeader` accepts a 32-byte buffer whose header
declares 513 bytes, and `NewMessageBytes` accepts a 35-byte buffer whose header declares
9 bytes; both return a header whose `Length` is not the length of the buffer. -/
theorem header_length_invariant_fails :
    (NewMessageHeader sampleHeaderBytes = .ok (sampleHeader 513 3 0x01F8) ∧
      (sampleHeader 513 3 0x01F8).Length ≠ sampleHeaderBytes.length) ∧
    (NewMessageBytes rawFrame =
        .ok (.bytes { Header := sampleHeader 9 7 0xABCD, Bytes := [0xDE, 0xAD, 0xBF] }) ∧
      (sampleHeader 9 7 0xABCD).Length ≠ rawFrame.length) := by
  decide

/-- C12 (as amended). For every buffer shorter than `2 ^ 32` bytes, the header of the
message returned by a successful `NewMessage` has its `Length` equal to the length of the
buffer. The functions `NewMessageHeader` and `NewMessageBytes` do not compare the two:
the header they return carries as `Length` the little-endian value of bytes 0..4,
whatever the length of the buffer (32 for `NewMessageHeader`, at least 32 for
`NewMessageBytes`). -/
theorem NewMessage_header_length (b : List Byte) :
    (∀ m, b.length < 2 ^ 32 → NewMessage b = .ok m → m.Header.Length = b.length) ∧
    (∀ h, NewMessageHeader b = .ok h →
      h.Length = declaredLength b ∧ b.length = MessageHeaderSize) ∧
    (∀ m, NewMessageBytes b = .ok m →
      m.Header.Length = declaredLength b ∧ MessageHeaderSize ≤ b.length) := by
  refine ⟨fun m hlt hm => ?_, fun h hh => ?_, fun m hm => ?_⟩
  · obtain ⟨-, hH, hL⟩ := NewMessage_ok_header b m hm
    rw [hH, headerAt_Length, ← hL, Nat.mod_eq_of_lt hlt]
  · by_cases hb : b.length = 32
    · rw [NewMessageHeader_of_length b hb] at hh
      rw [← Result.ok.inj hh, headerAt_Length, MessageHeaderSize_eq]
      exact ⟨rfl, hb⟩
    · rw [NewMessageHeader, MessageHeaderSize_eq, if_pos hb] at hh
      exact Result.noConfusion hh
  · by_cases hb : 32 ≤ b.length
    · rw [NewMessageBytes, MessageHeaderSize_eq, if_neg (by omega),
        NewMessageHeader_take b hb] at hm
      rw [← Result.ok.inj hm, MessageHeaderSize_eq]
      exact ⟨rfl, hb⟩
    · rw [NewMessageBytes, MessageHeaderSize_eq, if_pos (by omega)] at hm
      exact Result.noConfusion hm

/-- Witness of C12: a 33-byte control frame that declares 33 bytes, a 32-byte buffer
that declares 513 bytes and a 35-byte buffer that declares 9 bytes. -/
theorem NewMessage_header_length_witness :
    (controlFrame.length < 2 ^ 32 ∧
      NewMessage controlFrame = .ok (.header (sampleHeader 33 2 0x025F)) ∧
      NewMessageHeader sampleHeaderBytes = .ok (sampleHeader 513 3 0x01F8) ∧
      NewMessageBytes rawFrame =
        .ok (.bytes { Header := sampleHeader 9 7 0xABCD, Bytes := [0xDE, 0xAD, 0xBF] })) ∧
    (Message.header (sampleHeader 33 2 0x025F)).Header.Length = controlFrame.length ∧
    (sampleHeader 513 3 0x01F8).Length = declaredLength sampleHeaderBytes ∧
    (sampleHeader 9 7 0xABCD).Length = declaredLength rawFrame :=
  ⟨by decide,
    (NewMessage_header_length controlFrame).1 _ (by decide) (by decide),
    ((NewMessage_header_length sampleHeaderBytes).2.1 _ (by decide)).1,
    ((NewMessage_header_length rawFrame).2.2
      (.bytes { Header := sampleHeader 9 7 0xABCD, Bytes := [0xDE, 0xAD, 0xBF] })
      (by decide)).1⟩

/-- C13. For the encoding tags 0x0000 and 0x0001 and every byte slice, the empty one
included, `Decode` returns exactly its input and no error, whatever the zlib library
does. -/
theorem Decode_identity (z : Zlib) (data : List Byte) :
    Decode z 0x0000 data = .ok data ∧ Decode z 0x0001 data = .ok data :=
  ⟨rfl, rfl⟩

/-- C14. For every encoding tag outside 0x0000, 0x0001, 0x0100 and 0x0101 and every
byte slice, `Decode` returns the error "unsupported codec"; for a tag among the four
it never returns that error. -/
theorem Decode_unsupportedCodec (z : Zlib) (tag : Nat) (data : List Byte) :
    (tag ∉ knownEncodings → Decode z tag data = .error .unsupportedCodec) ∧
    (tag ∈ knownEncodings → Decode z tag data ≠ .error .unsupportedCodec) := by
  constructor
  · intro h
    rw [Decode, decoderMap_none z tag h]
  · intro h
    simp only [knownEncodings, List.mem_cons, List.mem_singleton, List.mem_nil_iff,
      or_false] at h
    rcases h with h | h | h | h <;> subst h
    · exact fun h => Result.noConfusion h
    · exact fun h => Result.noConfusion h
    · exact decodeZlib_ne_error z data _
    · exact decodeZlib_ne_error z data _

/-- Witness of C14: the tags 0x0002 and 0x0100 on an empty input. -/
theorem Decode_unsupportedCodec_witness :
    (2 ∉ knownEncodings ∧ 0x0100 ∈ knownEncodings) ∧
    Decode (goZlib (truncatedBody [])) 2 [] = .error .unsupportedCodec ∧
    Decode (goZlib (truncatedBody [])) 0x0100 [] ≠ .error .unsupportedCodec :=
  ⟨by decide, (Decode_unsupportedCodec _ 2 []).1 (by decide),
    (Decode_unsupportedCodec _ 0x0100 []).2 (by decide)⟩

/-- C15 (the code departs from the claim). For the encoding tags 0x0100 and 0x0101:
when `zlib.NewReader` rejects the input (stream header missing or invalid), `Decode`
panics instead of returning the error; when the reader is created and reading it to the
end reports an error, `Decode` returns the bytes decoded so far and a nil error. -/
theorem Decode_zlib_malformed (z : Zlib) (tag : Nat) (data : List Byte)
    (ht : tag = 0x0100 ∨ tag = 0x0101) :
    (∀ e, z.NewReader data = .error e → Decode z tag data = .panic) ∧
    (∀ out e, z.NewReader data = .ok { out := out, err := some e } →
      Decode z tag data = .ok out) := by
  have hd : Decode z tag data = decodeZlib z data := by
    rcases ht with h | h <;> subst h <;> rfl
  constructor
  · intro e he
    rw [hd, decodeZlib, he]
  · intro out e he
    rw [hd, decodeZlib, he]

/-- Witness of C15: an empty input, which has no stream header, and a valid stream
header followed by a truncated body. -/
theorem Decode_zlib_malformed_witness :
    ((0x0100 = 0x0100 ∨ 0x0100 = 0x0101) ∧
      (goZlib (truncatedBody [7])).NewReader [] = .error .ErrUnexpectedEOF ∧
      (goZlib (truncatedBody [7])).NewReader headerOnlyStream =
        .ok { out := [7], err := some .ErrUnexpectedEOF }) ∧
    Decode (goZlib (truncatedBody [7])) 0x0100 [] = .panic ∧
    Decode (goZlib (truncatedBody [7])) 0x0100 headerOnlyStream = .ok [7] :=
  ⟨⟨Or.inl rfl, rfl, rfl⟩,
    (Decode_zlib_malformed (goZlib (truncatedBody [7])) 0x0100 [] (Or.inl rfl)).1 _ rfl,
    (Decode_zlib_malformed (goZlib (truncatedBody [7])) 0x0100 headerOnlyStream
      (Or.inl rfl)).2 _ _ rfl⟩

/-- C16. For every buffer shorter than `MessageHeaderSize` = 32 bytes `NewMessage`
returns the error "message length too small", and for every buffer of at least 32 bytes
it never returns that error. -/
theorem NewMessage_tooSmall (b : List Byte) :
    MessageHeaderSize = 32 ∧
    (b.length < MessageHeaderSize → NewMessage b = .error .messageLengthTooSmall) ∧
    (MessageHeaderSize ≤ b.length → NewMessage b ≠ .error .messageLengthTooSmall) := by
  refine ⟨MessageHeaderSize_eq, fun h => ?_, fun h => ?_⟩
  · rw [NewMessage, if_pos h]
  · rw [MessageHeaderSize_eq] at h
    exact NewMessage_ne_tooSmall b h

/-- Witness of C16: a 31-byte buffer and a 33-byte buffer. -/
theorem NewMessage_tooSmall_witness :
    ((sampleHeaderBytes.take 31).length < MessageHeaderSize ∧
      MessageHeaderSize ≤ controlFrame.length) ∧
    NewMessage (sampleHeaderBytes.take 31) = .error .messageLengthTooSmall ∧
    NewMessage controlFrame ≠ .error .messageLengthTooSmall :=
  ⟨by decide, (NewMessage_tooSmall (sampleHeaderBytes.take 31)).2.1 (by decide),
    (NewMessage_tooSmall controlFrame).2.2 (by decide)⟩

/-- C18. For every 1560-byte buffer that declares 1560 bytes, with control type 3 and
message type 0x025F, `NewMessage` returns an item-listing batch of 10 listing records
whose `i`-th record is decoded from the 152 bytes at offset `32 + 152 i` (`ListingID`
at relative offset 0, `PricePerUnit` at 32, `RetainerName` the 32 bytes at 76, `HQ` true
exactly when the byte at 140 is not zero, `DyeID` at 144), and whose trailer is
`ListingIndexEnd` = byte 1552, `ListingIndexStart` = byte 1553 and `RequestID` the
little-endian value of bytes 1554..1556. -/
theorem NewMessage_itemListing_layout (b : List Byte) (hlen : b.length = 1560)
    (hdecl : declaredLength b = 1560) (hct : controlType b = 3)
    (hty : messageType b = 0x025F) :
    ∃ m, NewMessage b = .ok (.marketBoardItemListing m) ∧
      m.Listing.length = 10 ∧
      (∀ i, i < 10 → ∃ l, m.Listing[i]? = some l ∧
        l.ListingID = littleEndian (slice b (32 + 152 * i) (32 + 152 * i + 8)) ∧
        l.PricePerUnit = littleEndian (slice b (32 + 152 * i + 32) (32 + 152 * i + 36)) ∧
        l.RetainerName = slice b (32 + 152 * i + 76) (32 + 152 * i + 108) ∧
        l.HQ = (b.getD (32 + 152 * i + 140) 0 != 0) ∧
        l.DyeID = littleEndian (slice b (32 + 152 * i + 144) (32 + 152 * i + 146))) ∧
      m.ListingIndexEnd = b.getD 1552 0 ∧
      m.ListingIndexStart = b.getD 1553 0 ∧
      m.RequestID = littleEndian (slice b 1554 1556) := by
  obtain ⟨hL, hE, hS, hR⟩ := decodeMessageMarketBoardItemListing_fields b
  refine ⟨_, NewMessage_itemListing_value b hlen hdecl hct hty, ?_, ?_, hE, hS, ?_⟩
  · rw [hL, List.length_map, List.length_range]
  · intro i hi
    obtain ⟨f1, f2, f3, f4, f5⟩ := decodeMarketItemListing_fields (b.drop (32 + i * 152))
    refine ⟨(decodeMarketItemListing (b.drop (32 + i * 152))).1, ?_, ?_, ?_, ?_, ?_, ?_⟩
    · rw [hL, List.getElem?_map, List.getElem?_range hi]
      rfl
    · rw [f1, Uint64_drop b _ (by omega), Nat.mul_comm i 152]
    · rw [f2, List.drop_drop, Uint32_drop b _ (by omega), Nat.mul_comm i 152]
    · rw [f3, List.drop_drop, array_uint8_drop 32 _ b (by omega), Nat.mul_comm i 152]
    · rw [f4, List.drop_drop, getD_drop, Nat.mul_comm i 152]
    · rw [f5, List.drop_drop, Uint16_drop b _ (by omega), Nat.mul_comm i 152]
  · rw [hR, Uint16_drop b 1554 (by omega)]

/-- Witness of C18: a sample 1560-byte frame. -/
theorem NewMessage_itemListing_layout_witness :
    (sampleListingFrame.length = 1560 ∧ declaredLength sampleListingFrame = 1560 ∧
      controlType sampleListingFrame = 3 ∧ messageType sampleListingFrame = 0x025F) ∧
    ∃ m, NewMessage sampleListingFrame = .ok (.marketBoardItemListing m) ∧
      m.Listing.length = 10 ∧
      (∀ i, i < 10 → ∃ l, m.Listing[i]? = some l ∧
        l.ListingID =
          littleEndian (slice sampleListingFrame (32 + 152 * i) (32 + 152 * i + 8)) ∧
        l.PricePerUnit =
          littleEndian (slice sampleListingFrame (32 + 152 * i + 32) (32 + 152 * i + 36)) ∧
        l.RetainerName = slice sampleListingFrame (32 + 152 * i + 76) (32 + 152 * i + 108) ∧
        l.HQ = (sampleListingFrame.getD (32 + 152 * i + 140) 0 != 0) ∧
        l.DyeID =
          littleEndian (slice sampleListingFrame (32 + 152 * i + 144) (32 + 152 * i + 146))) ∧
      m.ListingIndexEnd = sampleListingFrame.getD 1552 0 ∧
      m.ListingIndexStart = sampleListingFrame.getD 1553 0 ∧
      m.RequestID = littleEndian (slice sampleListingFrame 1554 1556) :=
  ⟨by decide, NewMessage_itemListing_layout sampleListingFrame (by decide) (by decide)
    (by decide) (by decide)⟩

/-- C19. The read-error branches are unreachable behind the length guards. Inside
`NewMessage`, on a buffer of at least 32 bytes the inner `NewMessageHeader(b[0:32])`
succeeds; `NewBundleHeader`, `NewMessageHeader` and each of the six parsers succeed as
soon as the exact-length guard passes, the packed size that `binary.Read` asks for
being at most the guarded size; hence `NewMessage` returns either a message or one of
its four errors, and never panics. -/
theorem read_errors_unreachable (b : List Byte) :
    (MessageHeaderSize ≤ b.length →
      ∃ h, NewMessageHeader (slice b 0 MessageHeaderSize) = .ok h) ∧
    (BundleHeaderT.dataSize ≤ BundleHeaderSize ∧
      (b.length = BundleHeaderSize → ∃ h, NewBundleHeader b = .ok h)) ∧
    (MessageHeaderT.dataSize ≤ MessageHeaderSize ∧
      (b.length = MessageHeaderSize → ∃ h, NewMessageHeader b = .ok h)) ∧
    (MessageMarketTaxRatesT.dataSize ≤ MessageMarketTaxRatesSize ∧
      (b.length = MessageMarketTaxRatesSize → ∃ m, parseMessageMarketTaxRates b = .ok m)) ∧
    (MessageMarketBoardItemListingCountT.dataSize ≤ MessageMarketBoardItemListingCountSize ∧
      (b.length = MessageMarketBoardItemListingCountSize →
        ∃ m, parseMessageMarketBoardItemListingCount b = .ok m)) ∧
    (MessageMarketBoardItemListingT.dataSize ≤ MessageMarketBoardItemListingSize ∧
      (b.length = MessageMarketBoardItemListingSize →
        ∃ m, parseMessageMarketBoardItemListing b = .ok m)) ∧
    (MessageMarketBoardItemListingHistoryT.dataSize ≤ MessageMarketBoardItemListingHistorySize ∧
      (b.length = MessageMarketBoardItemListingHistorySize →
        ∃ m, parseMessageMarketBoardItemListingHistory b = .ok m)) ∧
    (MessageMarketBoardSearchResultT.dataSize ≤ MessageMarketBoardSearchResultSize ∧
      (b.length = MessageMarketBoardSearchResultSize →
        ∃ m, parseMessageMarketBoardSearchResult b = .ok m)) ∧
    (MessageMarketBoardRequestItemListingInfoT.dataSize ≤
        MessageMarketBoardRequestItemListingInfoSize ∧
      (b.length = MessageMarketBoardRequestItemListingInfoSize →
        ∃ m, parseMessageMarketBoardRequestItemListingInfo b = .ok m)) ∧
    ((∃ m, NewMessage b = .ok m) ∨ NewMessage b = .error .messageLengthTooSmall ∨
      NewMessage b = .error .messageLengthInvalid ∨
      NewMessage b = .error .unrecognizedMessageType ∨
      NewMessage b = .error .invalidMessageSize) ∧
    NewMessage b ≠ .panic := by
  have key : ∀ {α : Type} (n size : Nat) (dec : Decoder α) (f : α → Message), size ≤ n →
      b.length = n →
      ∃ m, (if b.length ≠ n then Result.error Err.invalidMessageSize
        else (binaryRead size dec b).map f) = .ok m := by
    intro α n size dec f hle hb
    rw [if_neg (fun hne => hne hb), binaryRead_ok _ _ _ (by omega)]
    exact ⟨_, rfl⟩
  refine ⟨fun h => ?_, ⟨by decide, fun h => ?_⟩, ⟨by decide, fun h => ?_⟩,
    ⟨by decide, fun h => key _ _ _ _ (by decide) h⟩,
    ⟨by decide, fun h => key _ _ _ _ (by decide) h⟩,
    ⟨by decide, fun h => key _ _ _ _ (by decide) h⟩,
    ⟨by decide, fun h => key _ _ _ _ (by decide) h⟩,
    ⟨by decide, fun h => key _ _ _ _ (by decide) h⟩,
    ⟨by decide, fun h => key _ _ _ _ (by decide) h⟩,
    NewMessage_outcome b, ?_⟩
  · rw [MessageHeaderSize_eq] at h ⊢
    exact ⟨_, NewMessageHeader_take b h⟩
  · exact ⟨_, NewBundleHeader_of_length b h⟩
  · rw [MessageHeaderSize_eq] at h
    exact ⟨_, NewMessageHeader_of_length b h⟩
  · intro hp
    rcases NewMessage_outcome b with ⟨m, h⟩ | h | h | h | h <;> rw [h] at hp <;>
      exact Result.noConfusion hp

/-- Witness of C19: a 32-byte buffer and a 40-byte buffer behind their guards. -/
theorem read_errors_unreachable_witness :
    (MessageHeaderSize ≤ sampleHeaderBytes.length ∧ sampleBundle.length = BundleHeaderSize) ∧
    (∃ h, NewMessageHeader (slice sampleHeaderBytes 0 MessageHeaderSize) = .ok h) ∧
    (∃ h, NewBundleHeader sampleBundle = .ok h) :=
  ⟨by decide, (read_errors_unreachable sampleHeaderBytes).1 (by decide),
    (read_errors_unreachable sampleBundle).2.1.2 (by decide)⟩

/-- C20. Message-header decoding is lossless: two 32-byte buffers that
`NewMessageHeader` decodes to the same result are equal, and for every buffer of at
least 32 bytes the raw message returned by `NewMessageBytes` determines the buffer: the
packed little-endian encoding of its header followed by its `Bytes` is the buffer. -/
theorem NewMessageHeader_lossless :
    (∀ b1 b2 : List Byte, b1.length = MessageHeaderSize → b2.length = MessageHeaderSize →
      NewMessageHeader b1 = NewMessageHeader b2 → b1 = b2) ∧
    (∀ b : List Byte, MessageHeaderSize ≤ b.length →
      ∃ m, NewMessageBytes b = .ok (.bytes m) ∧ encodeMessageHeader m.Header ++ m.Bytes = b) := by
  rw [MessageHeaderSize_eq]
  constructor
  · intro b1 b2 h1 h2 e
    rw [NewMessageHeader_of_length b1 h1, NewMessageHeader_of_length b2 h2] at e
    have e2 : headerAt b1 = headerAt b2 := Result.ok.inj e
    have k1 := encodeMessageHeader_headerAt b1 (by omega)
    have k2 := encodeMessageHeader_headerAt b2 (by omega)
    rw [List.take_of_length_le (by omega)] at k1 k2
    rw [← k1, ← k2, e2]
  · intro b h
    refine ⟨{ Header := headerAt b, Bytes := b.drop 32 }, ?_, ?_⟩
    · rw [NewMessageBytes, MessageHeaderSize_eq, if_neg (by omega), NewMessageHeader_take b h]
    · rw [encodeMessageHeader_headerAt b h, List.take_append_drop]

/-- Witness of C20: a 32-byte buffer compared with itself, and a 35-byte buffer. -/
theorem NewMessageHeader_lossless_witness :
    (sampleHeaderBytes.length = MessageHeaderSize ∧ MessageHeaderSize ≤ rawFrame.length) ∧
    sampleHeaderBytes = sampleHeaderBytes ∧
    ∃ m, NewMessageBytes rawFrame = .ok (.bytes m) ∧
      encodeMessageHeader m.Header ++ m.Bytes = rawFrame :=
  ⟨by decide,
    NewMessageHeader_lossless.1 sampleHeaderBytes sampleHeaderBytes (by decide) (by decide) rfl,
    NewMessageHeader_lossless.2 rawFrame (by decide)⟩

end FFXIV
